import Mathlib

/-!
Shallow embedding of the cursor_handler codecs (src/cur.rs and src/ani.rs)
and proofs about them.

Modelling conventions:
* byte streams are `List Nat` (each element intended as one u8);
* machine integers are `Nat`; wherever the source narrows a value
  (`as u8`, `as u16`, `as u32`, `to_le_bytes`) the embedding reduces
  modulo the corresponding power of two;
* the seekable writer used by AniFile::encode is an explicit
  `SeekWriter` state (contents plus stream position), so the two back-patches
  of the LIST size and the RIFF size are modelled exactly as in the source;
* the seekable reader is modelled by indices into the input list; a
  `read_exact` of n bytes succeeds when n bytes remain (an n = 0 read
  always succeeds), which is the behaviour of read_exact on an
  io::Cursor.  On a failed read the position is left unchanged (the
  position after a failed read_exact is unspecified in the io contract;
  every spot where the source ignores such a failure is at end of
  stream, where the choice is unobservable);
* the unbounded `loop`/`while` of AniFile::decode are written with an
  explicit iteration budget (`fuel`).  Every iteration consumes at least
  8 input bytes (an iteration only happens after an 8-byte chunk or
  sub-chunk header was read), so the fuel passed by `AniFile.decode`
  (input length + 1) can never be exhausted; the fuel-0 branch returns
  the same value as the end-of-stream break of the source.
-/

set_option maxHeartbeats 1000000
set_option maxRecDepth 8192

/-- Little-endian byte pair of a 16-bit value, as written by u16::to_le_bytes
(values are reduced modulo 2^16, matching an `as u16` narrowing). -/
def toLe16 (n : Nat) : List Nat := [n % 256, n / 256 % 256]

/-- Little-endian bytes of a 32-bit value, as written by u32::to_le_bytes
(values are reduced modulo 2^32, matching an `as u32` narrowing). -/
def toLe32 (n : Nat) : List Nat :=
  [n % 256, n / 256 % 256, n / 65536 % 256, n / 16777216 % 256]

/-- Value of two little-endian bytes, as read by u16::from_le_bytes. -/
def fromLe16 (a b : Nat) : Nat := a + 256 * b

/-- Value of four little-endian bytes, as read by u32::from_le_bytes. -/
def fromLe32 (a b c d : Nat) : Nat := a + 256 * b + 65536 * c + 16777216 * d

/-- A byte buffer interpreted as consecutive 32-bit little-endian values:
`chunks_exact(4)` followed by from_le_bytes on each group; a trailing
remainder of fewer than 4 bytes is dropped, as chunks_exact does. -/
def chunksExact4 : List Nat → List Nat
  | a :: b :: c :: d :: rest => fromLe32 a b c d :: chunksExact4 rest
  | _ => []

/-! ### The cursor directory codec, src/cur.rs -/

/-- One frame of a static cursor (struct CursorFrame in cur.rs): width and
height are u32, the hotspots u16, the payload an owned byte vector. -/
structure CursorFrame where
  width : Nat
  height : Nat
  hotspot_x : Nat
  hotspot_y : Nat
  image_data : List Nat
deriving DecidableEq

/-- A static cursor file (struct CursorFile in cur.rs). -/
structure CursorFile where
  frames : List CursorFrame
deriving DecidableEq

/-- The directory byte for a width or height: cur.rs writes 0 when the
value is 256 and otherwise casts the u32 to u8 (truncation modulo 256). -/
def dimByte (w : Nat) : Nat := if w = 256 then 0 else w % 256

/-- The 16 bytes of one directory entry, in the order the encode loop
writes them: width byte, height byte, two zero bytes, hotspot-x,
hotspot-y, payload size (u32), absolute payload offset (u32). -/
def dirEntryBytes (f : CursorFrame) (offset : Nat) : List Nat :=
  [dimByte f.width, dimByte f.height, 0, 0] ++ toLe16 f.hotspot_x ++ toLe16 f.hotspot_y
    ++ toLe32 f.image_data.length ++ toLe32 offset

/-- The directory block: one entry per frame in order; the offset starts at
the given value and advances by each frame's payload length, mirroring
the mutable `offset` of the encode loop. -/
def dirBytes : List CursorFrame → Nat → List Nat
  | [], _ => []
  | f :: fs, offset => dirEntryBytes f offset ++ dirBytes fs (offset + f.image_data.length)

/-- CursorFile::encode: error on an empty frame list, otherwise the header
`00 00 02 00` + u16 frame count, the directory block starting offsets at
6 + 16·N, then every payload in frame order. -/
def CursorFile.encode (c : CursorFile) : Except String (List Nat) :=
  if c.frames = [] then .error "No frames"
  else
    .ok ([0, 0, 2, 0] ++ toLe16 c.frames.length
      ++ dirBytes c.frames (6 + c.frames.length * 16)
      ++ c.frames.flatMap (fun f => f.image_data))

/-- One decoded directory entry, the tuple the decode loop pushes. -/
structure DirEntry where
  width : Nat
  height : Nat
  hotspot_x : Nat
  hotspot_y : Nat
  size : Nat
  offset : Nat
deriving DecidableEq

/-- Field extraction from one 16-byte directory entry, as in
CursorFile::decode: a width or height byte of 0 maps back to 256. -/
def parseDirEntry (e : List Nat) : DirEntry :=
  { width := if e.getD 0 0 = 0 then 256 else e.getD 0 0
    height := if e.getD 1 0 = 0 then 256 else e.getD 1 0
    hotspot_x := fromLe16 (e.getD 4 0) (e.getD 5 0)
    hotspot_y := fromLe16 (e.getD 6 0) (e.getD 7 0)
    size := fromLe32 (e.getD 8 0) (e.getD 9 0) (e.getD 10 0) (e.getD 11 0)
    offset := fromLe32 (e.getD 12 0) (e.getD 13 0) (e.getD 14 0) (e.getD 15 0) }

/-- The first decode loop: read `count` 16-byte directory entries
sequentially starting at position `pos`; a short read aborts. -/
def readDirEntries (data : List Nat) : Nat → Nat → Except String (List DirEntry)
  | _, 0 => .ok []
  | pos, count + 1 =>
    if 16 ≤ data.length - pos then
      (readDirEntries data (pos + 16) count).map
        (fun es => parseDirEntry ((data.drop pos).take 16) :: es)
    else .error "failed to fill whole buffer"

/-- Reading one frame's payload: seek to the entry's absolute offset and
read exactly `size` bytes (a zero-length read always succeeds). -/
def readFrameData (data : List Nat) (e : DirEntry) : Except String CursorFrame :=
  if e.size ≤ data.length - e.offset then
    .ok { width := e.width, height := e.height, hotspot_x := e.hotspot_x,
          hotspot_y := e.hotspot_y, image_data := (data.drop e.offset).take e.size }
  else .error "failed to fill whole buffer"

/-- The second decode loop: one payload read per directory entry, frames
pushed in entry order, any failed read aborting the decode. -/
def readFrames (data : List Nat) : List DirEntry → Except String (List CursorFrame)
  | [] => .ok []
  | e :: es =>
    (readFrameData data e).bind
      (fun fr => (readFrames data es).map (fun fs => fr :: fs))

/-- CursorFile::decode: 6-byte header (resource type must be 2, frame
count must be nonzero), then the directory entries, then the payloads
addressed by their recorded absolute offsets. -/
def CursorFile.decode (data : List Nat) : Except String CursorFile :=
  if 6 ≤ data.length then
    let header := data.take 6
    if fromLe16 (header.getD 2 0) (header.getD 3 0) ≠ 2 then .error "Not a cursor file"
    else
      let count := fromLe16 (header.getD 4 0) (header.getD 5 0)
      if count = 0 then .error "No frames"
      else
        (readDirEntries data 6 count).bind
          (fun entries => (readFrames data entries).map (fun fs => { frames := fs }))
  else .error "failed to fill whole buffer"

/-! ### The animated cursor codec, src/ani.rs -/

/-- One frame of an animated cursor (struct AniFrame in ani.rs); the
duration is in jiffies (1/60 s) and optional. -/
structure AniFrame where
  width : Nat
  height : Nat
  hotspot_x : Nat
  hotspot_y : Nat
  image_data : List Nat
  duration : Option Nat
deriving DecidableEq

/-- The fixed 36-byte animation header (struct AniHeader in ani.rs);
every field is a u32. -/
structure AniHeader where
  num_frames : Nat
  num_steps : Nat
  width : Nat
  height : Nat
  bit_count : Nat
  planes : Nat
  default_rate : Nat
  flags : Nat
deriving DecidableEq

/-- AniHeader::new: all fields zero except the default rate of 6 jiffies. -/
def AniHeader.new : AniHeader :=
  { num_frames := 0, num_steps := 0, width := 0, height := 0,
    bit_count := 0, planes := 0, default_rate := 6, flags := 0 }

/-- An animated cursor file (struct AniFile in ani.rs). -/
structure AniFile where
  header : AniHeader
  frames : List AniFrame
  sequence : List Nat
  rates : List Nat
deriving DecidableEq

/-- AniFile::new: identity sequence, empty rates, header counts taken from
the frame list and nominal geometry from the first frame when present. -/
def AniFile.new (frames : List AniFrame) : AniFile :=
  let num_frames := frames.length % 4294967296
  let base : AniHeader :=
    { AniHeader.new with num_frames := num_frames, num_steps := num_frames }
  let header : AniHeader :=
    match frames with
    | [] => base
    | f :: _ => { base with width := f.width, height := f.height, bit_count := 32, planes := 1 }
  { header := header, frames := frames, sequence := List.range num_frames, rates := [] }

/-- The chunk tag "RIFF" as bytes. -/
def riffTag : List Nat := [82, 73, 70, 70]

/-- The form type "ACON" as bytes. -/
def aconTag : List Nat := [65, 67, 79, 78]

/-- The chunk tag "anih" as bytes. -/
def anihTag : List Nat := [97, 110, 105, 104]

/-- The chunk tag "seq " as bytes. -/
def seqTag : List Nat := [115, 101, 113, 32]

/-- The chunk tag "rate" as bytes. -/
def rateTag : List Nat := [114, 97, 116, 101]

/-- The chunk tag "LIST" as bytes. -/
def listTag : List Nat := [76, 73, 83, 84]

/-- The LIST sub-type "fram" as bytes. -/
def framTag : List Nat := [102, 114, 97, 109]

/-- The sub-chunk tag "icon" as bytes. -/
def iconTag : List Nat := [105, 99, 111, 110]

/-- A seekable byte sink: the bytes written so far and the stream
position, as provided by the Write + Seek bound of AniFile::encode. -/
structure SeekWriter where
  data : List Nat
  pos : Nat
deriving DecidableEq

/-- write_all on a seekable sink: bytes already present at the current
position are overwritten, the position advances past the written bytes. -/
def SeekWriter.writeAll (w : SeekWriter) (bs : List Nat) : SeekWriter :=
  { data := w.data.take w.pos ++ bs ++ w.data.drop (w.pos + bs.length),
    pos := w.pos + bs.length }

/-- seek(SeekFrom::Start p). -/
def SeekWriter.seekStart (w : SeekWriter) (p : Nat) : SeekWriter := { data := w.data, pos := p }

/-- The 36-byte body of the "anih" chunk in the order AniFile::encode
writes it: structure size 36, then the eight u32 header fields. -/
def anihBody (h : AniHeader) : List Nat :=
  toLe32 36 ++ toLe32 h.num_frames ++ toLe32 h.num_steps ++ toLe32 h.width
    ++ toLe32 h.height ++ toLe32 h.bit_count ++ toLe32 h.planes
    ++ toLe32 h.default_rate ++ toLe32 h.flags

/-- The step of the icon-writing loop of AniFile::encode: the "icon" tag,
the payload length as declared size, the raw payload, and one zero pad
byte when the payload length is odd. -/
def writeIcon (w : SeekWriter) (fr : AniFrame) : SeekWriter :=
  let w := (w.writeAll iconTag).writeAll (toLe32 fr.image_data.length)
  let w := w.writeAll fr.image_data
  if fr.image_data.length % 2 ≠ 0 then w.writeAll [0] else w

/-- The tail of AniFile::encode, from the "LIST" write to the final
size patches (source lines 160-189): write the LIST chunk with one icon
sub-chunk per frame, then seek back and patch the LIST size and the
RIFF size.  `file_size_pos` and `start_pos` are the positions recorded
earlier in encode (right after "RIFF" and right after "ACON"). -/
def writeFrames (a : AniFile) (w : SeekWriter) (file_size_pos start_pos : Nat) : List Nat :=
  let w := w.writeAll listTag
  let list_size_pos := w.pos
  let w := w.writeAll [0, 0, 0, 0]
  let w := w.writeAll framTag
  let list_start := w.pos
  let w := a.frames.foldl writeIcon w
  let list_end := w.pos
  let list_size := list_end - list_start
  let w := (w.seekStart list_size_pos).writeAll (toLe32 list_size)
  let file_end := w.pos
  let file_size := file_end - start_pos + 4
  let w := (w.seekStart file_size_pos).writeAll (toLe32 file_size)
  w.data

/-- AniFile::encode on a fresh stream, mirrored statement by statement;
the LIST chunk and the two seek-back size patches are in `writeFrames`. -/
def AniFile.encode (a : AniFile) : Except String (List Nat) :=
  if a.frames = [] then .error "No frames"
  else
    let w := SeekWriter.mk [] 0
    let w := w.writeAll riffTag
    let file_size_pos := w.pos
    let w := w.writeAll [0, 0, 0, 0]
    let w := w.writeAll aconTag
    let start_pos := w.pos
    let w := w.writeAll anihTag
    let w := w.writeAll (toLe32 36)
    let w := w.writeAll (anihBody a.header)
    let w :=
      if a.sequence ≠ List.range a.header.num_frames then
        ((w.writeAll seqTag).writeAll (toLe32 (a.sequence.length * 4))).writeAll
          (a.sequence.flatMap toLe32)
      else w
    let w :=
      if a.rates ≠ [] then
        ((w.writeAll rateTag).writeAll (toLe32 (a.rates.length * 4))).writeAll
          (a.rates.flatMap toLe32)
      else w
    .ok (writeFrames a w file_size_pos start_pos)

/-- AniFile::parse_cursor_data: peek into an embedded resource blob;
fails on fewer than 22 bytes, otherwise takes width and height from
bytes 6 and 7 (0 mapping to 256) and the hotspots from the little-endian
16-bit values at bytes 10 to 11 and 12 to 13; the whole blob becomes the
frame payload and the duration is always absent. -/
def parse_cursor_data (data : List Nat) : Except String AniFrame :=
  if data.length < 22 then .error "Invalid cursor data"
  else
    .ok { width := if data.getD 6 0 = 0 then 256 else data.getD 6 0,
          height := if data.getD 7 0 = 0 then 256 else data.getD 7 0,
          hotspot_x := fromLe16 (data.getD 10 0) (data.getD 11 0),
          hotspot_y := fromLe16 (data.getD 12 0) (data.getD 13 0),
          image_data := data, duration := none }

/-- The mutable decode state of AniFile::decode: the header and the three
lists the chunk loop accumulates. -/
structure AniDecState where
  header : AniHeader
  sequence : List Nat
  rates : List Nat
  frames : List AniFrame
deriving DecidableEq

/-- Parsing an "anih" chunk body: fields are assigned only when at least
36 bytes were read, otherwise the current header is kept. -/
def parseAnih (d : List Nat) (h : AniHeader) : AniHeader :=
  if 36 ≤ d.length then
    { num_frames := fromLe32 (d.getD 4 0) (d.getD 5 0) (d.getD 6 0) (d.getD 7 0)
      num_steps := fromLe32 (d.getD 8 0) (d.getD 9 0) (d.getD 10 0) (d.getD 11 0)
      width := fromLe32 (d.getD 12 0) (d.getD 13 0) (d.getD 14 0) (d.getD 15 0)
      height := fromLe32 (d.getD 16 0) (d.getD 17 0) (d.getD 18 0) (d.getD 19 0)
      bit_count := fromLe32 (d.getD 20 0) (d.getD 21 0) (d.getD 22 0) (d.getD 23 0)
      planes := fromLe32 (d.getD 24 0) (d.getD 25 0) (d.getD 26 0) (d.getD 27 0)
      default_rate := fromLe32 (d.getD 28 0) (d.getD 29 0) (d.getD 30 0) (d.getD 31 0)
      flags := fromLe32 (d.getD 32 0) (d.getD 33 0) (d.getD 34 0) (d.getD 35 0) }
  else h

/-- The inner while loop over the "fram" LIST body.  `rest` is the still
unread input, `budget` the number of body bytes the loop may still start
a sub-chunk in (list_start + remaining_size minus the current position;
an overshooting sub-chunk makes it 0 and ends the loop, exactly like the
source's position comparison).  Returns the number of bytes consumed and
the accumulated frames; a header read hitting end of stream breaks, a
short icon body or a parse_cursor_data failure aborts. -/
def iconLoop (fuel : Nat) (rest : List Nat) (budget : Nat) (frames : List AniFrame) :
    Except String (Nat × List AniFrame) :=
  match fuel with
  | 0 => .ok (0, frames)
  | fuel + 1 =>
    if budget = 0 then .ok (0, frames)
    else if 8 ≤ rest.length then
      let hdr := rest.take 8
      if hdr.take 4 = iconTag then
        let isize := fromLe32 (hdr.getD 4 0) (hdr.getD 5 0) (hdr.getD 6 0) (hdr.getD 7 0)
        if isize ≤ (rest.drop 8).length then
          match parse_cursor_data ((rest.drop 8).take isize) with
          | .error e => .error e
          | .ok frame =>
            let consumed := 8 + isize + (if isize % 2 ≠ 0 then 1 else 0)
            match iconLoop fuel (rest.drop consumed) (budget - consumed) (frames ++ [frame]) with
            | .error e => .error e
            | .ok (c, fs) => .ok (consumed + c, fs)
        else .error "failed to fill whole buffer"
      else
        match iconLoop fuel (rest.drop 8) (budget - 8) frames with
        | .error e => .error e
        | .ok (c, fs) => .ok (8 + c, fs)
    else .ok (0, frames)

/-- One iteration of the top-level chunk loop of AniFile::decode: read an
8-byte chunk header (none is returned when the stream ends here, ending
the loop), dispatch on the tag, then skip one pad byte when the declared
chunk size is odd.  Unknown tags and unknown LIST sub-types are skipped
by their declared size; the size arithmetic `chunk_size - 4` is the
wrapping u32 subtraction of the source.  Returns the unread remainder of
the input and the updated state. -/
def chunkStep (rest : List Nat) (st : AniDecState) :
    Except String (Option (List Nat × AniDecState)) :=
  if 8 ≤ rest.length then
    let hdr := rest.take 8
    let chunk_id := hdr.take 4
    let chunk_size := fromLe32 (hdr.getD 4 0) (hdr.getD 5 0) (hdr.getD 6 0) (hdr.getD 7 0)
    let body := rest.drop 8
    let pad := if chunk_size % 2 ≠ 0 then 1 else 0
    if chunk_id = anihTag then
      if chunk_size ≤ body.length then
        .ok (some (rest.drop (8 + chunk_size + pad),
          { st with header := parseAnih (body.take chunk_size) st.header }))
      else .error "failed to fill whole buffer"
    else if chunk_id = seqTag then
      if chunk_size ≤ body.length then
        .ok (some (rest.drop (8 + chunk_size + pad),
          { st with sequence := st.sequence ++ chunksExact4 (body.take chunk_size) }))
      else .error "failed to fill whole buffer"
    else if chunk_id = rateTag then
      if chunk_size ≤ body.length then
        .ok (some (rest.drop (8 + chunk_size + pad),
          { st with rates := st.rates ++ chunksExact4 (body.take chunk_size) }))
      else .error "failed to fill whole buffer"
    else if chunk_id = listTag then
      if 4 ≤ body.length then
        if body.take 4 = framTag then
          (iconLoop (rest.length + 1) (body.drop 4)
              ((chunk_size + 4294967296 - 4) % 4294967296) st.frames).map
            (fun cfs =>
              some (rest.drop (12 + cfs.1 + pad), { st with frames := cfs.2 }))
        else
          .ok (some (rest.drop (12 + (chunk_size + 4294967296 - 4) % 4294967296 + pad), st))
      else .error "failed to fill whole buffer"
    else
      .ok (some (rest.drop (8 + chunk_size + pad), st))
  else .ok none

/-- The top-level chunk loop of AniFile::decode: iterate chunkStep until
the stream ends (or, unreachably, the fuel does). -/
def chunkLoop (fuel : Nat) (rest : List Nat) (st : AniDecState) : Except String AniDecState :=
  match fuel with
  | 0 => .ok st
  | fuel + 1 =>
    match chunkStep rest st with
    | .error e => .error e
    | .ok none => .ok st
    | .ok (some (rest', st')) => chunkLoop fuel rest' st'

/-- AniFile::decode: check the RIFF signature and the ACON form type, run
the chunk loop on the remainder, then synthesize the identity sequence
when the accumulated sequence is empty. -/
def AniFile.decode (data : List Nat) : Except String AniFile :=
  if 12 ≤ data.length then
    let riff_header := data.take 12
    if riff_header.take 4 ≠ riffTag then .error "Not a RIFF file"
    else if (riff_header.drop 8).take 4 ≠ aconTag then .error "Not an ANI file"
    else
      match chunkLoop (data.length + 1) (data.drop 12)
          { header := AniHeader.new, sequence := [], rates := [], frames := [] } with
      | .error e => .error e
      | .ok st =>
        .ok { header := st.header, frames := st.frames,
              sequence := if st.sequence = [] then List.range st.header.num_frames
                          else st.sequence,
              rates := st.rates }
  else .error "failed to fill whole buffer"

/-! ### Derived byte-layout descriptions used in the statements -/

/-- The bytes of one "icon" sub-chunk as laid out by the encode loop:
tag, declared size equal to the payload length, payload, one zero pad
byte when the payload length is odd. -/
def iconChunk (fr : AniFrame) : List Nat :=
  iconTag ++ toLe32 fr.image_data.length ++ fr.image_data
    ++ (if fr.image_data.length % 2 ≠ 0 then [0] else [])

/-- The body of the "fram" LIST: every frame's icon sub-chunk in order. -/
def iconBytes (frames : List AniFrame) : List Nat := frames.flatMap iconChunk

/-- The optional "seq " chunk: present exactly when the sequence differs
from the identity 0..num_frames. -/
def seqSection (a : AniFile) : List Nat :=
  if a.sequence ≠ List.range a.header.num_frames then
    seqTag ++ toLe32 (a.sequence.length * 4) ++ a.sequence.flatMap toLe32
  else []

/-- The optional "rate" chunk: present exactly when the rates list is
non-empty. -/
def rateSection (a : AniFile) : List Nat :=
  if a.rates ≠ [] then rateTag ++ toLe32 (a.rates.length * 4) ++ a.rates.flatMap toLe32
  else []

/-- The value AniFile::encode patches into the RIFF size field: the
position right after patching the LIST size, minus the position after
"ACON", plus 4. -/
def aniFileSize (a : AniFile) : Nat :=
  56 + (seqSection a).length + (rateSection a).length

/-- The complete output of AniFile::encode on a non-empty file. -/
def aniBytes (a : AniFile) : List Nat :=
  riffTag ++ toLe32 (aniFileSize a) ++ aconTag
    ++ anihTag ++ toLe32 36 ++ anihBody a.header
    ++ seqSection a ++ rateSection a
    ++ listTag ++ toLe32 (iconBytes a.frames).length ++ framTag ++ iconBytes a.frames

/-- Frames the static codec can represent exactly on the wire: dimensions
in 1..256 (the directory byte convention) and 16-bit hotspots. -/
abbrev CurFrameOk (f : CursorFrame) : Prop :=
  1 ≤ f.width ∧ f.width ≤ 256 ∧ 1 ≤ f.height ∧ f.height ≤ 256 ∧
  f.hotspot_x < 65536 ∧ f.hotspot_y < 65536

/-- Total payload size of a static cursor's frame list. -/
def totalPayload (frames : List CursorFrame) : Nat :=
  (frames.map (fun f => f.image_data.length)).sum

/-- The directory entries CursorFile::decode recovers from an encoded
file: the frame's own geometry plus the running offset. -/
def entriesOf : List CursorFrame → Nat → List DirEntry
  | [], _ => []
  | f :: fs, off =>
    { width := f.width, height := f.height, hotspot_x := f.hotspot_x,
      hotspot_y := f.hotspot_y, size := f.image_data.length, offset := off }
      :: entriesOf fs (off + f.image_data.length)

/-- Animated frames the codec round-trips exactly: no duration (decode
never recovers one), and a payload of at least 22 bytes whose embedded
directory bytes agree with the frame's own geometry fields, since decode
re-derives the geometry by peeking into the payload. -/
abbrev AniFrameOk (fr : AniFrame) : Prop :=
  fr.duration = none ∧
  22 ≤ fr.image_data.length ∧
  fr.image_data.length < 4294967296 ∧
  fr.image_data.getD 6 0 = dimByte fr.width ∧
  fr.image_data.getD 7 0 = dimByte fr.height ∧
  1 ≤ fr.width ∧ fr.width ≤ 256 ∧ 1 ≤ fr.height ∧ fr.height ≤ 256 ∧
  fromLe16 (fr.image_data.getD 10 0) (fr.image_data.getD 11 0) = fr.hotspot_x ∧
  fromLe16 (fr.image_data.getD 12 0) (fr.image_data.getD 13 0) = fr.hotspot_y

deriving instance DecidableEq for Except

/-! ### Concrete example values used in the statements -/

/-- The 32 by 32 frame of the specification's concrete CUR scenario:
hotspot (0,0), 100-byte payload. -/
def frameA : CursorFrame := ⟨32, 32, 0, 0, List.replicate 100 1⟩

/-- The 256 by 256 frame of the specification's concrete CUR scenario:
hotspot (128,128), 50-byte payload. -/
def frameB : CursorFrame := ⟨256, 256, 128, 128, List.replicate 50 2⟩

/-- A 3 by 4 animated frame whose 22-byte payload carries the same
geometry in its embedded directory bytes (byte 6 = 3, byte 7 = 4,
hotspot bytes (5,0) and (6,0)), so the payload peek of decode agrees
with the frame fields. -/
def aniFrame1 : AniFrame :=
  ⟨3, 4, 5, 6, [0, 0, 2, 0, 1, 0, 3, 4, 0, 0, 5, 0, 6, 0, 0, 0, 0, 0, 22, 0, 0, 0], none⟩

/-- A 1 by 1 animated frame with an all-zero 22-byte payload: its payload
byte 6 is 0, which decode maps to width 256. -/
def cexFrame : AniFrame := ⟨1, 1, 0, 0, List.replicate 22 0, none⟩

theorem toLe32_length (n : Nat) : (toLe32 n).length = 4 := rfl

theorem anihBody_length (h : AniHeader) : (anihBody h).length = 36 := rfl

theorem fromLe32_toLe32 (n : Nat) :
    fromLe32 (n % 256) (n / 256 % 256) (n / 65536 % 256) (n / 16777216 % 256) =
      n % 4294967296 := by
  unfold fromLe32; omega

theorem fromLe16_toLe16 (n : Nat) : fromLe16 (n % 256) (n / 256 % 256) = n % 65536 := by
  unfold fromLe16; omega

theorem chunksExact4_flatMap (vals : List Nat) (h : ∀ v ∈ vals, v < 4294967296) :
    chunksExact4 (vals.flatMap toLe32) = vals := by
  induction vals with
  | nil => rfl
  | cons v vs ih =>
    have hv : v < 4294967296 := h v (by simp)
    have : chunksExact4 (toLe32 v ++ vs.flatMap toLe32) =
        fromLe32 (v % 256) (v / 256 % 256) (v / 65536 % 256) (v / 16777216 % 256)
          :: chunksExact4 (vs.flatMap toLe32) := rfl
    simp only [List.flatMap_cons, this, fromLe32_toLe32, Nat.mod_eq_of_lt hv]
    exact congrArg _ (ih (fun x hx => h x (by simp [hx])))

theorem writeAll_pos_end (w : SeekWriter) (bs : List Nat) (hp : w.pos = w.data.length) :
    w.writeAll bs = ⟨w.data ++ bs, w.data.length + bs.length⟩ := by
  obtain ⟨d, p⟩ := w
  simp only at hp
  subst hp
  simp [SeekWriter.writeAll, List.drop_eq_nil_of_le]

theorem writeAll_endlen (d bs : List Nat) :
    SeekWriter.writeAll ⟨d, d.length⟩ bs = ⟨d ++ bs, (d ++ bs).length⟩ := by
  simp [SeekWriter.writeAll, List.drop_eq_nil_of_le]

theorem writeAll_patch (A B C bs : List Nat) (h : B.length = bs.length) :
    SeekWriter.writeAll ⟨A ++ B ++ C, A.length⟩ bs = ⟨A ++ bs ++ C, A.length + bs.length⟩ := by
  have ht : List.take A.length (A ++ B ++ C) = A := by
    rw [List.append_assoc]; exact List.take_left' rfl
  have hd : List.drop (A.length + bs.length) (A ++ B ++ C) = C := by
    rw [← h, ← List.length_append A B, List.drop_left]
  simp only [SeekWriter.writeAll, ht, hd]

theorem writeIcon_end (d : List Nat) (fr : AniFrame) :
    writeIcon ⟨d, d.length⟩ fr = ⟨d ++ iconChunk fr, (d ++ iconChunk fr).length⟩ := by
  by_cases hodd : fr.image_data.length % 2 ≠ 0
  · simp only [writeIcon, writeAll_endlen, if_pos hodd]
    simp [iconChunk, hodd, List.append_assoc]
  · simp only [writeIcon, writeAll_endlen, if_neg hodd]
    simp [iconChunk, hodd, List.append_assoc]

theorem foldl_writeIcon (frames : List AniFrame) (d : List Nat) :
    frames.foldl writeIcon ⟨d, d.length⟩ =
      ⟨d ++ iconBytes frames, (d ++ iconBytes frames).length⟩ := by
  induction frames generalizing d with
  | nil => simp [iconBytes]
  | cons fr fs ih =>
    rw [List.foldl_cons, writeIcon_end, ih]
    simp [iconBytes]

theorem writeAll_endlen0 (bs : List Nat) : SeekWriter.writeAll ⟨[], 0⟩ bs = ⟨bs, bs.length⟩ := by
  simp [SeekWriter.writeAll]

theorem writeAll_patch' (w : SeekWriter) (A B C bs : List Nat) (hdata : w.data = A ++ B ++ C)
    (hpos : w.pos = A.length) (h : B.length = bs.length) :
    w.writeAll bs = ⟨A ++ bs ++ C, A.length + bs.length⟩ := by
  obtain ⟨d, p⟩ := w
  simp only at hdata hpos
  subst hdata hpos
  exact writeAll_patch A B C bs h

theorem writeFrames_eq (a : AniFile) (P : List Nat) (fsp sp : Nat)
    (hfsp : fsp = 4) (hsp : sp = 12) (hP : 12 ≤ P.length) :
    writeFrames a ⟨P, P.length⟩ fsp sp =
      P.take 4 ++ toLe32 P.length
        ++ (P.drop 8 ++ listTag ++ toLe32 (iconBytes a.frames).length
            ++ framTag ++ iconBytes a.frames) := by
  subst hfsp hsp
  unfold writeFrames
  simp only [writeAll_endlen, foldl_writeIcon, SeekWriter.seekStart]
  have hLS : (P ++ listTag ++ [0, 0, 0, 0] ++ framTag ++ iconBytes a.frames).length -
      (P ++ listTag ++ [0, 0, 0, 0] ++ framTag).length = (iconBytes a.frames).length := by
    simp
    omega
  rw [hLS]
  rw [writeAll_patch' ⟨P ++ listTag ++ [0, 0, 0, 0] ++ framTag ++ iconBytes a.frames,
        (P ++ listTag).length⟩ (P ++ listTag) [0, 0, 0, 0] (framTag ++ iconBytes a.frames)
        (toLe32 (iconBytes a.frames).length) (by simp) rfl (by simp [toLe32])]
  dsimp only
  have hFS : (P ++ listTag).length + (toLe32 (iconBytes a.frames).length).length - 12 + 4 =
      P.length := by
    simp [toLe32, listTag]
    omega
  rw [hFS]
  have hsplit : P = P.take 4 ++ ((P.drop 4).take 4 ++ P.drop 8) := by
    rw [← List.append_assoc, ← List.take_add]
    simp
  rw [writeAll_patch' ⟨(P ++ listTag) ++ toLe32 (iconBytes a.frames).length
        ++ (framTag ++ iconBytes a.frames), 4⟩ (P.take 4) ((P.drop 4).take 4)
        (P.drop 8 ++ listTag ++ toLe32 (iconBytes a.frames).length ++ framTag
          ++ iconBytes a.frames)
        (toLe32 P.length)
        (by conv_lhs => rw [hsplit]
            simp [List.append_assoc])
        (by simp; omega)
        (by simp [toLe32]; omega)]

theorem writeFrames_eq' (a : AniFile) (P : List Nat) (hP : 12 ≤ P.length) :
    writeFrames a ⟨P, P.length⟩ riffTag.length ((riffTag ++ [0, 0, 0, 0] ++ aconTag).length) =
      P.take 4 ++ toLe32 P.length
        ++ (P.drop 8 ++ listTag ++ toLe32 (iconBytes a.frames).length
            ++ framTag ++ iconBytes a.frames) :=
  writeFrames_eq a P _ _ (by rfl) (by rfl) hP

theorem riff_take4 (X : List Nat) : (riffTag ++ ([0, 0, 0, 0] ++ X)).take 4 = riffTag := rfl

theorem riff_drop8 (X : List Nat) : (riffTag ++ ([0, 0, 0, 0] ++ X)).drop 8 = X := rfl

set_option linter.unreachableTactic false in
set_option linter.unusedTactic false in
theorem AniFile.encode_eq (a : AniFile) (h : a.frames ≠ []) :
    AniFile.encode a = .ok (aniBytes a) := by
  unfold AniFile.encode
  rw [if_neg h]
  by_cases hseq : a.sequence ≠ List.range a.header.num_frames
  · by_cases hrate : a.rates ≠ []
    · simp only [if_pos hseq, if_pos hrate, writeAll_endlen0, writeAll_endlen]
      rw [writeFrames_eq' a _
        (by simp [riffTag, aconTag, anihTag, anihBody_length, toLe32_length])]
      refine congrArg Except.ok ?_
      simp only [List.append_assoc]
      rw [riff_take4, riff_drop8]
      simp only [aniBytes, seqSection, rateSection, if_pos hseq, if_pos hrate,
        List.append_assoc]
      congr 3
      all_goals simp [riffTag, aconTag, anihTag, seqTag, rateTag, aniFileSize, seqSection,
        rateSection, hseq, hrate, anihBody_length, toLe32_length]
      all_goals try omega
    · simp only [if_pos hseq, if_neg hrate, writeAll_endlen0, writeAll_endlen]
      rw [writeFrames_eq' a _
        (by simp [riffTag, aconTag, anihTag, anihBody_length, toLe32_length])]
      refine congrArg Except.ok ?_
      simp only [List.append_assoc]
      rw [riff_take4, riff_drop8]
      simp only [aniBytes, seqSection, rateSection, if_pos hseq, if_neg hrate,
        List.append_assoc, List.append_nil, List.nil_append]
      congr 3
      all_goals simp [riffTag, aconTag, anihTag, seqTag, rateTag, aniFileSize, seqSection,
        rateSection, hseq, hrate, anihBody_length, toLe32_length]
      all_goals try omega
  · by_cases hrate : a.rates ≠ []
    · simp only [if_neg hseq, if_pos hrate, writeAll_endlen0, writeAll_endlen]
      rw [writeFrames_eq' a _
        (by simp [riffTag, aconTag, anihTag, anihBody_length, toLe32_length])]
      refine congrArg Except.ok ?_
      simp only [List.append_assoc]
      rw [riff_take4, riff_drop8]
      simp only [aniBytes, seqSection, rateSection, if_neg hseq, if_pos hrate,
        List.append_assoc, List.append_nil, List.nil_append]
      congr 3
      all_goals simp [riffTag, aconTag, anihTag, seqTag, rateTag, aniFileSize, seqSection,
        rateSection, hseq, hrate, anihBody_length, toLe32_length]
      all_goals try omega
    · simp only [if_neg hseq, if_neg hrate, writeAll_endlen0, writeAll_endlen]
      rw [writeFrames_eq' a _
        (by simp [riffTag, aconTag, anihTag, anihBody_length, toLe32_length])]
      refine congrArg Except.ok ?_
      simp only [List.append_assoc]
      rw [riff_take4, riff_drop8]
      simp only [aniBytes, seqSection, rateSection, if_neg hseq, if_neg hrate,
        List.append_assoc, List.append_nil, List.nil_append]
      congr 3
      all_goals simp [riffTag, aconTag, anihTag, seqTag, rateTag, aniFileSize, seqSection,
        rateSection, hseq, hrate, anihBody_length, toLe32_length]
      all_goals try omega

/-! ### Helper lemmas for the decode direction -/

theorem take4_tag (t u : List Nat) (ht : t.length = 4) : (t ++ u).take 4 = t :=
  List.take_left' ht

theorem drop_tag_size (t : List Nat) (ht : t.length = 4) (n : Nat) (u : List Nat) :
    (t ++ (toLe32 n ++ u)).drop 8 = u := by
  rw [← List.append_assoc]
  exact List.drop_left' (by simp [ht, toLe32])

theorem dimByte_inv (w : Nat) (h1 : 1 ≤ w) (h2 : w ≤ 256) :
    (if dimByte w = 0 then 256 else dimByte w) = w := by
  unfold dimByte
  by_cases hw : w = 256
  · simp [hw]
  · rw [if_neg hw, Nat.mod_eq_of_lt (by omega), if_neg (by omega)]

theorem parse_cursor_data_ok (fr : AniFrame) (h : AniFrameOk fr) :
    parse_cursor_data fr.image_data = .ok fr := by
  obtain ⟨hd, hlen, hsz, h6, h7, hw1, hw2, hh1, hh2, hhx, hhy⟩ := h
  unfold parse_cursor_data
  rw [if_neg (by omega)]
  rw [h6, h7, hhx, hhy, dimByte_inv fr.width hw1 hw2, dimByte_inv fr.height hh1 hh2, ← hd]

theorem iconChunk_length (fr : AniFrame) :
    (iconChunk fr).length =
      8 + fr.image_data.length + (if fr.image_data.length % 2 ≠ 0 then 1 else 0) := by
  by_cases h : fr.image_data.length % 2 ≠ 0 <;> simp [iconChunk, iconTag, toLe32, h] <;> omega

theorem iconBytes_cons (fr : AniFrame) (fs : List AniFrame) :
    iconBytes (fr :: fs) = iconChunk fr ++ iconBytes fs := by
  simp [iconBytes]

theorem iconBytes_nil : iconBytes [] = [] := rfl

theorem size_of_icon (s : Nat) (Y : List Nat) :
    fromLe32 (((iconTag ++ (toLe32 s ++ Y)).take 8).getD 4 0)
      (((iconTag ++ (toLe32 s ++ Y)).take 8).getD 5 0)
      (((iconTag ++ (toLe32 s ++ Y)).take 8).getD 6 0)
      (((iconTag ++ (toLe32 s ++ Y)).take 8).getD 7 0) = s % 4294967296 := by
  show fromLe32 (s % 256) (s / 256 % 256) (s / 65536 % 256) (s / 16777216 % 256) = _
  exact fromLe32_toLe32 s

theorem take8_tag_size (t : List Nat) (ht : t.length = 4) (n : Nat) (u : List Nat) :
    (t ++ (toLe32 n ++ u)).take 8 = t ++ toLe32 n := by
  rw [← List.append_assoc]
  exact List.take_left' (by simp [ht, toLe32])

theorem size_of_header (t : List Nat) (ht : t.length = 4) (n : Nat) :
    fromLe32 ((t ++ toLe32 n).getD 4 0) ((t ++ toLe32 n).getD 5 0)
      ((t ++ toLe32 n).getD 6 0) ((t ++ toLe32 n).getD 7 0) = n % 4294967296 := by
  obtain ⟨a, b, c, d, rfl⟩ : ∃ a b c d, t = [a, b, c, d] := by
    match t, ht with
    | [a, b, c, d], _ => exact ⟨a, b, c, d, rfl⟩
  show fromLe32 (n % 256) (n / 256 % 256) (n / 65536 % 256) (n / 16777216 % 256) = _
  exact fromLe32_toLe32 n

theorem iconLoop_step (f : Nat) (img Y : List Nat) (budget : Nat) (acc : List AniFrame)
    (frame : AniFrame) (hsz : img.length < 4294967296) (hbud : budget ≠ 0)
    (hparse : parse_cursor_data img = .ok frame) :
    iconLoop (f + 1) (iconTag ++ (toLe32 img.length ++ (img ++
        ((if img.length % 2 ≠ 0 then [0] else []) ++ Y)))) budget acc =
      (match iconLoop f Y (budget - (8 + img.length + (if img.length % 2 ≠ 0 then 1 else 0)))
          (acc ++ [frame]) with
       | .error e => .error e
       | .ok (c, fs) =>
         .ok (8 + img.length + (if img.length % 2 ≠ 0 then 1 else 0) + c, fs)) := by
  by_cases hpar : img.length % 2 ≠ 0
  · simp only [if_pos hpar]
    simp only [iconLoop]
    rw [if_neg hbud]
    rw [if_pos (by simp [iconTag, toLe32])]
    rw [if_pos (by rfl)]
    rw [take8_tag_size iconTag rfl]
    rw [size_of_header iconTag rfl, Nat.mod_eq_of_lt hsz]
    rw [drop_tag_size iconTag rfl]
    rw [if_pos (by simp)]
    rw [List.take_left' rfl]
    rw [hparse]
    simp only [if_pos hpar]
    have hdropc : (iconTag ++ (toLe32 img.length ++ (img ++ ([0] ++ Y)))).drop
        (8 + img.length + 1) = Y := by
      rw [show (iconTag ++ (toLe32 img.length ++ (img ++ ([0] ++ Y))))
            = (iconTag ++ toLe32 img.length ++ img ++ [0]) ++ Y from by
          simp [List.append_assoc]]
      refine List.drop_left' ?_
      simp [iconTag, toLe32]
      omega
    rw [hdropc]
  · simp only [if_neg hpar]
    simp only [iconLoop]
    rw [if_neg hbud]
    rw [if_pos (by simp [iconTag, toLe32])]
    rw [if_pos (by rfl)]
    rw [take8_tag_size iconTag rfl]
    rw [size_of_header iconTag rfl, Nat.mod_eq_of_lt hsz]
    rw [drop_tag_size iconTag rfl]
    rw [if_pos (by simp)]
    rw [List.take_left' rfl]
    rw [hparse]
    simp only [if_neg hpar]
    have hdropc : (iconTag ++ (toLe32 img.length ++ (img ++ ([] ++ Y)))).drop
        (8 + img.length + 0) = Y := by
      rw [show (iconTag ++ (toLe32 img.length ++ (img ++ ([] ++ Y))))
            = (iconTag ++ toLe32 img.length ++ img) ++ Y from by
          simp [List.append_assoc]]
      refine List.drop_left' ?_
      simp [iconTag, toLe32]
      omega
    rw [hdropc]

theorem iconLoop_spec (frames : List AniFrame) :
    ∀ (fuel : Nat) (rest : List Nat) (acc : List AniFrame),
    (∀ fr ∈ frames, AniFrameOk fr) → frames.length < fuel →
    iconLoop fuel (iconBytes frames ++ rest) ((iconBytes frames).length - 4) acc =
      .ok ((iconBytes frames).length, acc ++ frames) := by
  induction frames with
  | nil =>
    intro fuel rest acc _ hfuel
    cases fuel with
    | zero => omega
    | succ f => simp [iconLoop, iconBytes]
  | cons fr fs ih =>
    intro fuel rest acc hok hfuel
    cases fuel with
    | zero => simp at hfuel
    | succ f =>
    have hfr : AniFrameOk fr := hok fr (by simp)
    have hsz : fr.image_data.length < 4294967296 := hfr.2.2.1
    have hshape : iconBytes (fr :: fs) ++ rest = iconTag ++ (toLe32 fr.image_data.length ++
        (fr.image_data ++ ((if fr.image_data.length % 2 ≠ 0 then [0] else [])
          ++ (iconBytes fs ++ rest)))) := by
      simp [iconBytes, iconChunk, List.append_assoc]
    rw [hshape]
    rw [iconLoop_step f fr.image_data (iconBytes fs ++ rest) _ acc fr hsz
      (by simp [iconBytes_cons, iconChunk_length fr]; omega) (parse_cursor_data_ok fr hfr)]
    have hbud2 : (iconBytes (fr :: fs)).length - 4
        - (8 + fr.image_data.length + (if fr.image_data.length % 2 ≠ 0 then 1 else 0))
        = (iconBytes fs).length - 4 := by
      rw [iconBytes_cons]
      simp only [List.length_append, iconChunk_length fr]
      omega
    rw [hbud2, ih f rest (acc ++ [fr]) (fun x hx => hok x (by simp [hx]))
      (by simp at hfuel ⊢; omega)]
    have hlen : (iconBytes (fr :: fs)).length
        = 8 + fr.image_data.length + (if fr.image_data.length % 2 ≠ 0 then 1 else 0)
          + (iconBytes fs).length := by
      rw [iconBytes_cons, List.length_append, iconChunk_length fr]
    simp only [Except.ok.injEq, Prod.mk.injEq]
    constructor
    · omega
    · simp

theorem drop4_tag (t u : List Nat) (ht : t.length = 4) : (t ++ u).drop 4 = u :=
  List.drop_left' ht

theorem flatMap_toLe32_length (l : List Nat) : (l.flatMap toLe32).length = 4 * l.length := by
  induction l with
  | nil => rfl
  | cons x xs ih => simp [toLe32, ih]; omega

theorem chunkLoop_nil (fuel : Nat) (st : AniDecState) : chunkLoop fuel [] st = .ok st := by
  cases fuel <;> rfl

theorem chunkLoop_cons (fuel : Nat) {rest st rest' st'}
    (h : chunkStep rest st = .ok (some (rest', st'))) :
    chunkLoop (fuel + 1) rest st = chunkLoop fuel rest' st' := by
  simp only [chunkLoop, h]

theorem chunkStep_anih (body rest : List Nat) (st : AniDecState)
    (hb : body.length = 36) :
    chunkStep (anihTag ++ (toLe32 36 ++ (body ++ rest))) st =
      .ok (some (rest, { st with header := parseAnih body st.header })) := by
  simp only [chunkStep]
  rw [if_pos (by simp [anihTag, toLe32])]
  rw [take8_tag_size anihTag rfl, drop_tag_size anihTag rfl]
  rw [if_pos (by rfl)]
  rw [size_of_header anihTag rfl]
  rw [show (36 : Nat) % 4294967296 = 36 from by norm_num]
  rw [if_pos (by simp [hb])]
  rw [List.take_left' hb]
  rw [if_neg (by decide)]
  have hdrop : (anihTag ++ (toLe32 36 ++ (body ++ rest))).drop (8 + 36 + 0) = rest := by
    rw [show (anihTag ++ (toLe32 36 ++ (body ++ rest)))
          = (anihTag ++ toLe32 36 ++ body) ++ rest from by simp [List.append_assoc]]
    refine List.drop_left' ?_
    simp [anihTag, toLe32, hb]
  rw [hdrop]

theorem chunkStep_seq (vals rest : List Nat) (st : AniDecState)
    (hsz : vals.length * 4 < 4294967296) (hvals : ∀ v ∈ vals, v < 4294967296) :
    chunkStep (seqTag ++ (toLe32 (vals.length * 4) ++ (vals.flatMap toLe32 ++ rest))) st =
      .ok (some (rest, { st with sequence := st.sequence ++ vals })) := by
  simp only [chunkStep]
  rw [if_pos (by simp [seqTag, toLe32])]
  rw [take8_tag_size seqTag rfl, drop_tag_size seqTag rfl]
  rw [take4_tag seqTag _ rfl]
  rw [if_neg (by decide)]
  rw [if_pos (by rfl)]
  rw [size_of_header seqTag rfl]
  rw [Nat.mod_eq_of_lt hsz]
  rw [if_pos (by simp only [List.length_append, flatMap_toLe32_length]; omega)]
  rw [List.take_left' (by rw [flatMap_toLe32_length, Nat.mul_comm])]
  rw [chunksExact4_flatMap vals hvals]
  rw [if_neg (by omega)]
  have hdrop : (seqTag ++ (toLe32 (vals.length * 4) ++ (vals.flatMap toLe32 ++ rest))).drop
      (8 + vals.length * 4 + 0) = rest := by
    rw [show (seqTag ++ (toLe32 (vals.length * 4) ++ (vals.flatMap toLe32 ++ rest)))
          = (seqTag ++ toLe32 (vals.length * 4) ++ vals.flatMap toLe32) ++ rest from by
        simp [List.append_assoc]]
    refine List.drop_left' ?_
    simp only [List.length_append, List.length_cons, List.length_nil,
      flatMap_toLe32_length, seqTag, toLe32]
    omega
  rw [hdrop]

theorem chunkStep_rate (vals rest : List Nat) (st : AniDecState)
    (hsz : vals.length * 4 < 4294967296) (hvals : ∀ v ∈ vals, v < 4294967296) :
    chunkStep (rateTag ++ (toLe32 (vals.length * 4) ++ (vals.flatMap toLe32 ++ rest))) st =
      .ok (some (rest, { st with rates := st.rates ++ vals })) := by
  simp only [chunkStep]
  rw [if_pos (by simp [rateTag, toLe32])]
  rw [take8_tag_size rateTag rfl, drop_tag_size rateTag rfl]
  rw [take4_tag rateTag _ rfl]
  rw [if_neg (by decide)]
  rw [if_neg (by decide)]
  rw [if_pos (by rfl)]
  rw [size_of_header rateTag rfl]
  rw [Nat.mod_eq_of_lt hsz]
  rw [if_pos (by simp only [List.length_append, flatMap_toLe32_length]; omega)]
  rw [List.take_left' (by rw [flatMap_toLe32_length, Nat.mul_comm])]
  rw [chunksExact4_flatMap vals hvals]
  rw [if_neg (by omega)]
  have hdrop : (rateTag ++ (toLe32 (vals.length * 4) ++ (vals.flatMap toLe32 ++ rest))).drop
      (8 + vals.length * 4 + 0) = rest := by
    rw [show (rateTag ++ (toLe32 (vals.length * 4) ++ (vals.flatMap toLe32 ++ rest)))
          = (rateTag ++ toLe32 (vals.length * 4) ++ vals.flatMap toLe32) ++ rest from by
        simp [List.append_assoc]]
    refine List.drop_left' ?_
    simp only [List.length_append, List.length_cons, List.length_nil,
      flatMap_toLe32_length, rateTag, toLe32]
    omega
  rw [hdrop]

theorem iconBytes_even (frames : List AniFrame) : (iconBytes frames).length % 2 = 0 := by
  induction frames with
  | nil => rfl
  | cons fr fs ih =>
    rw [iconBytes_cons, List.length_append, iconChunk_length fr]
    by_cases hp : fr.image_data.length % 2 ≠ 0
    · simp only [if_pos hp]; omega
    · simp only [if_neg hp]; omega

theorem length_le_iconBytes (frames : List AniFrame) :
    frames.length ≤ (iconBytes frames).length := by
  induction frames with
  | nil => simp [iconBytes]
  | cons fr fs ih =>
    rw [iconBytes_cons]
    simp only [List.length_append, List.length_cons, iconChunk_length fr]
    omega

theorem iconBytes_ge8 (fr : AniFrame) (fs : List AniFrame) :
    8 ≤ (iconBytes (fr :: fs)).length := by
  rw [iconBytes_cons]
  simp only [List.length_append, iconChunk_length fr]
  omega

theorem chunkStep_unknown (tag body padL rest : List Nat) (sz : Nat)
    (st : AniDecState) (htag : tag.length = 4) (hna : tag ≠ anihTag) (hns : tag ≠ seqTag)
    (hnr : tag ≠ rateTag) (hnl : tag ≠ listTag) (hb : body.length = sz)
    (hsz : sz < 4294967296) (hpadL : padL.length = if sz % 2 ≠ 0 then 1 else 0) :
    chunkStep (tag ++ (toLe32 sz ++ (body ++ (padL ++ rest)))) st = .ok (some (rest, st)) := by
  simp only [chunkStep]
  rw [if_pos (by
    simp only [List.length_append, List.length_cons, List.length_nil, htag, toLe32]
    omega)]
  rw [take8_tag_size tag htag, drop_tag_size tag htag]
  rw [take4_tag tag _ htag]
  rw [if_neg hna, if_neg hns, if_neg hnr, if_neg hnl]
  rw [size_of_header tag htag]
  rw [Nat.mod_eq_of_lt hsz]
  have hdrop : (tag ++ (toLe32 sz ++ (body ++ (padL ++ rest)))).drop
      (8 + sz + (if sz % 2 ≠ 0 then 1 else 0)) = rest := by
    rw [show (tag ++ (toLe32 sz ++ (body ++ (padL ++ rest))))
          = (tag ++ toLe32 sz ++ body ++ padL) ++ rest from by simp [List.append_assoc]]
    refine List.drop_left' ?_
    simp only [List.length_append, List.length_cons, List.length_nil, htag, toLe32,
      hb, hpadL]
  rw [hdrop]

theorem chunkStep_list_unknown (subty lbody padL rest : List Nat)
    (st : AniDecState) (hsub : subty.length = 4) (hne : subty ≠ framTag)
    (hsz : 4 + lbody.length < 4294967296)
    (hpadL : padL.length = if (4 + lbody.length) % 2 ≠ 0 then 1 else 0) :
    chunkStep
      (listTag ++ (toLe32 (4 + lbody.length) ++ (subty ++ (lbody ++ (padL ++ rest))))) st =
      .ok (some (rest, st)) := by
  simp only [chunkStep]
  rw [if_pos (by simp [listTag, toLe32])]
  rw [take8_tag_size listTag rfl, drop_tag_size listTag rfl]
  rw [take4_tag listTag _ rfl]
  rw [if_neg (by decide), if_neg (by decide), if_neg (by decide)]
  rw [if_pos (by rfl)]
  rw [size_of_header listTag rfl]
  rw [Nat.mod_eq_of_lt hsz]
  rw [if_pos (by simp only [List.length_append, hsub]; omega)]
  rw [take4_tag subty _ hsub]
  rw [if_neg hne]
  have harith : (4 + lbody.length + 4294967296 - 4) % 4294967296 = lbody.length := by
    omega
  rw [harith]
  have hdrop : (listTag ++ (toLe32 (4 + lbody.length) ++ (subty ++ (lbody ++
      (padL ++ rest))))).drop
      (12 + lbody.length + (if (4 + lbody.length) % 2 ≠ 0 then 1 else 0)) = rest := by
    rw [show (listTag ++ (toLe32 (4 + lbody.length) ++ (subty ++ (lbody ++ (padL ++ rest)))))
          = (listTag ++ toLe32 (4 + lbody.length) ++ subty ++ lbody ++ padL) ++ rest from by
        simp [List.append_assoc]]
    refine List.drop_left' ?_
    simp only [List.length_append, List.length_cons, List.length_nil, listTag, toLe32,
      hsub, hpadL]
  rw [hdrop]

theorem chunkStep_list_fram (frames : List AniFrame) (rest : List Nat)
    (st : AniDecState) (hok : ∀ fr ∈ frames, AniFrameOk fr) (hne : frames ≠ [])
    (hT : (iconBytes frames).length < 4294967296) :
    chunkStep
      (listTag ++ (toLe32 (iconBytes frames).length ++ (framTag ++
        (iconBytes frames ++ rest)))) st =
      .ok (some (rest, { st with frames := st.frames ++ frames })) := by
  obtain ⟨fr, fs, rfl⟩ : ∃ fr fs, frames = fr :: fs := by
    cases frames with
    | nil => exact absurd rfl hne
    | cons fr fs => exact ⟨fr, fs, rfl⟩
  have h8T : 8 ≤ (iconBytes (fr :: fs)).length := iconBytes_ge8 fr fs
  have heven : (iconBytes (fr :: fs)).length % 2 = 0 := iconBytes_even (fr :: fs)
  simp only [chunkStep]
  rw [if_pos (by simp [listTag, toLe32])]
  rw [take8_tag_size listTag rfl, drop_tag_size listTag rfl]
  rw [take4_tag listTag _ rfl]
  rw [if_neg (by decide), if_neg (by decide), if_neg (by decide), if_pos rfl]
  rw [size_of_header listTag rfl]
  rw [Nat.mod_eq_of_lt hT]
  rw [if_pos (by
    simp only [List.length_append, framTag, List.length_cons, List.length_nil]
    omega)]
  rw [take4_tag framTag _ rfl, if_pos rfl]
  rw [drop4_tag framTag _ rfl]
  have harith : ((iconBytes (fr :: fs)).length + 4294967296 - 4) % 4294967296 =
      (iconBytes (fr :: fs)).length - 4 := by omega
  rw [harith]
  have hfuel : (fr :: fs).length <
      (listTag ++ (toLe32 (iconBytes (fr :: fs)).length ++ (framTag ++
        (iconBytes (fr :: fs) ++ rest)))).length + 1 := by
    have h1 := length_le_iconBytes (fr :: fs)
    simp only [List.length_append]
    omega
  rw [iconLoop_spec (fr :: fs) _ rest st.frames hok hfuel]
  simp only [Except.map]
  rw [if_neg (by omega)]
  have hdrop : (listTag ++ (toLe32 (iconBytes (fr :: fs)).length ++ (framTag ++
      (iconBytes (fr :: fs) ++ rest)))).drop (12 + (iconBytes (fr :: fs)).length + 0)
      = rest := by
    rw [show (listTag ++ (toLe32 (iconBytes (fr :: fs)).length ++ (framTag ++
          (iconBytes (fr :: fs) ++ rest))))
          = (listTag ++ toLe32 (iconBytes (fr :: fs)).length ++ framTag ++
            iconBytes (fr :: fs)) ++ rest from by simp [List.append_assoc]]
    refine List.drop_left' ?_
    simp only [List.length_append, List.length_cons, List.length_nil, listTag, framTag,
      toLe32]
    omega
  rw [hdrop]

theorem chunkStep_progress (rest : List Nat) (st : AniDecState) (rest' : List Nat)
    (st' : AniDecState) (h : chunkStep rest st = .ok (some (rest', st'))) :
    rest'.length + 8 ≤ rest.length := by
  by_cases h8 : 8 ≤ rest.length
  · simp only [chunkStep, if_pos h8] at h
    have hgen : ∀ (k : Nat) (s2 : AniDecState), 8 ≤ k →
        (Except.ok (some (rest.drop k, s2)) :
          Except String (Option (List Nat × AniDecState))) = .ok (some (rest', st')) →
        rest'.length + 8 ≤ rest.length := by
      intro k s2 hk he
      simp only [Except.ok.injEq, Option.some.injEq, Prod.mk.injEq] at he
      obtain ⟨he1, -⟩ := he
      subst he1
      simp only [List.length_drop]
      omega
    generalize hic : iconLoop (rest.length + 1) (List.drop 4 (List.drop 8 rest))
        ((fromLe32 ((List.take 8 rest).getD 4 0) ((List.take 8 rest).getD 5 0)
          ((List.take 8 rest).getD 6 0) ((List.take 8 rest).getD 7 0) + 4294967296 - 4) %
          4294967296) st.frames = R at h
    split_ifs at h
    all_goals
      first
        | exact hgen _ _ (by omega) h
        | cases h
        | (cases R with
           | error e =>
             simp only [Except.map] at h
             cases h
           | ok p =>
             obtain ⟨c, fs2⟩ := p
             simp only [Except.map] at h
             exact hgen _ _ (by omega) h)
  · simp only [chunkStep, if_neg h8] at h
    cases h

theorem chunkLoop_fuel : ∀ (f₁ : Nat) (rest : List Nat) (st : AniDecState) (f₂ : Nat),
    rest.length < f₁ → rest.length < f₂ →
    chunkLoop f₁ rest st = chunkLoop f₂ rest st := by
  intro f₁
  induction f₁ with
  | zero => intro rest st f₂ h1 _; omega
  | succ f ih =>
    intro rest st f₂ h1 h2
    cases f₂ with
    | zero => omega
    | succ g =>
    simp only [chunkLoop]
    cases hstep : chunkStep rest st with
    | error e => rfl
    | ok o =>
      cases o with
      | none => rfl
      | some p =>
        obtain ⟨rest', st'⟩ := p
        have hp := chunkStep_progress rest st rest' st' hstep
        exact ih rest' st' g (by omega) (by omega)

theorem dirEntryBytes_length (f : CursorFrame) (off : Nat) :
    (dirEntryBytes f off).length = 16 := by
  simp [dirEntryBytes, toLe16, toLe32]

theorem dirBytes_length (frames : List CursorFrame) :
    ∀ off, (dirBytes frames off).length = frames.length * 16 := by
  induction frames with
  | nil => intro off; rfl
  | cons f fs ih =>
    intro off
    simp only [dirBytes, List.length_append, dirEntryBytes_length, ih, List.length_cons]
    omega

theorem parseDirEntry_spec (f : CursorFrame) (off : Nat) (hok : CurFrameOk f)
    (hsz : f.image_data.length < 4294967296) (hoff : off < 4294967296) :
    parseDirEntry (dirEntryBytes f off) =
      { width := f.width, height := f.height, hotspot_x := f.hotspot_x,
        hotspot_y := f.hotspot_y, size := f.image_data.length, offset := off } := by
  obtain ⟨hw1, hw2, hh1, hh2, hhx, hhy⟩ := hok
  unfold parseDirEntry
  have e0 : (dirEntryBytes f off).getD 0 0 = dimByte f.width := rfl
  have e1 : (dirEntryBytes f off).getD 1 0 = dimByte f.height := rfl
  have e4 : (dirEntryBytes f off).getD 4 0 = f.hotspot_x % 256 := rfl
  have e5 : (dirEntryBytes f off).getD 5 0 = f.hotspot_x / 256 % 256 := rfl
  have e6 : (dirEntryBytes f off).getD 6 0 = f.hotspot_y % 256 := rfl
  have e7 : (dirEntryBytes f off).getD 7 0 = f.hotspot_y / 256 % 256 := rfl
  have e8 : (dirEntryBytes f off).getD 8 0 = f.image_data.length % 256 := rfl
  have e9 : (dirEntryBytes f off).getD 9 0 = f.image_data.length / 256 % 256 := rfl
  have e10 : (dirEntryBytes f off).getD 10 0 = f.image_data.length / 65536 % 256 := rfl
  have e11 : (dirEntryBytes f off).getD 11 0 = f.image_data.length / 16777216 % 256 := rfl
  have e12 : (dirEntryBytes f off).getD 12 0 = off % 256 := rfl
  have e13 : (dirEntryBytes f off).getD 13 0 = off / 256 % 256 := rfl
  have e14 : (dirEntryBytes f off).getD 14 0 = off / 65536 % 256 := rfl
  have e15 : (dirEntryBytes f off).getD 15 0 = off / 16777216 % 256 := rfl
  rw [e0, e1, e4, e5, e6, e7, e8, e9, e10, e11, e12, e13, e14, e15]
  rw [fromLe16_toLe16, fromLe16_toLe16, fromLe32_toLe32, fromLe32_toLe32]
  rw [Nat.mod_eq_of_lt hhx, Nat.mod_eq_of_lt hhy, Nat.mod_eq_of_lt hsz,
    Nat.mod_eq_of_lt hoff]
  rw [dimByte_inv f.width hw1 hw2, dimByte_inv f.height hh1 hh2]

theorem readDirEntries_spec (frames : List CursorFrame) :
    ∀ (data pre post : List Nat) (pos off0 : Nat),
    data = pre ++ (dirBytes frames off0 ++ post) → pre.length = pos →
    (∀ f ∈ frames, CurFrameOk f) → off0 + totalPayload frames < 4294967296 →
    readDirEntries data pos frames.length = .ok (entriesOf frames off0) := by
  induction frames with
  | nil => intro data pre post pos off0 _ _ _ _; rfl
  | cons f fs ih =>
    intro data pre post pos off0 hdata hpos hok hbound
    subst hdata
    subst hpos
    have hf := hok f (by simp)
    obtain ⟨hw1, hw2, hh1, hh2, hhx, hhy⟩ := hf
    have htp : totalPayload (f :: fs) = f.image_data.length + totalPayload fs := by
      simp [totalPayload]
    have hshape : pre ++ (dirBytes (f :: fs) off0 ++ post)
        = pre ++ (dirEntryBytes f off0 ++
            (dirBytes fs (off0 + f.image_data.length) ++ post)) := by
      simp [dirBytes, List.append_assoc]
    rw [hshape]
    show readDirEntries _ pre.length (fs.length + 1) = _
    simp only [readDirEntries]
    rw [if_pos (by
      simp only [List.length_append, dirEntryBytes_length]
      omega)]
    rw [List.drop_left]
    rw [List.take_left' (dirEntryBytes_length f off0)]
    rw [parseDirEntry_spec f off0 ⟨hw1, hw2, hh1, hh2, hhx, hhy⟩ (by omega) (by omega)]
    rw [ih (pre ++ (dirEntryBytes f off0 ++
          (dirBytes fs (off0 + f.image_data.length) ++ post)))
        (pre ++ dirEntryBytes f off0) post (pre.length + 16) (off0 + f.image_data.length)
        (by simp [List.append_assoc]) (by simp [dirEntryBytes_length])
        (fun x hx => hok x (by simp [hx])) (by omega)]
    rfl

theorem readFrameData_spec (f : CursorFrame) (data tail : List Nat) (off0 : Nat)
    (hdrop : data.drop off0 = f.image_data ++ tail)
    (hlen : off0 + f.image_data.length ≤ data.length) :
    readFrameData data
      { width := f.width, height := f.height, hotspot_x := f.hotspot_x,
        hotspot_y := f.hotspot_y, size := f.image_data.length, offset := off0 }
      = .ok f := by
  unfold readFrameData
  rw [if_pos (show f.image_data.length ≤ data.length - off0 by omega)]
  show (Except.ok (⟨f.width, f.height, f.hotspot_x, f.hotspot_y,
      (data.drop off0).take f.image_data.length⟩ : CursorFrame) :
    Except String CursorFrame) = .ok f
  have ht : (data.drop off0).take f.image_data.length = f.image_data := by
    rw [hdrop]
    exact List.take_left' rfl
  rw [ht]

theorem readFrames_spec (frames : List CursorFrame) :
    ∀ (data pre : List Nat) (off0 : Nat),
    data = pre ++ frames.flatMap (fun x => x.image_data) → pre.length = off0 →
    readFrames data (entriesOf frames off0) = .ok frames := by
  induction frames with
  | nil => intro data pre off0 _ _; rfl
  | cons f fs ih =>
    intro data pre off0 hdata hpos
    subst hpos
    have hE : entriesOf (f :: fs) pre.length
        = { width := f.width, height := f.height, hotspot_x := f.hotspot_x,
            hotspot_y := f.hotspot_y, size := f.image_data.length, offset := pre.length }
          :: entriesOf fs (pre.length + f.image_data.length) := rfl
    rw [hE]
    simp only [readFrames]
    have hflat : (f :: fs).flatMap (fun x => x.image_data)
        = f.image_data ++ fs.flatMap (fun x => x.image_data) := by simp
    have hdrop : data.drop pre.length
        = f.image_data ++ fs.flatMap (fun x => x.image_data) := by
      rw [hdata, hflat, List.drop_left]
    have hlen : pre.length + f.image_data.length ≤ data.length := by
      rw [hdata, hflat]
      simp only [List.length_append]
      omega
    rw [readFrameData_spec f data (fs.flatMap (fun x => x.image_data)) pre.length
      hdrop hlen]
    simp only [Except.bind]
    rw [ih data (pre ++ f.image_data) (pre.length + f.image_data.length)
      (by rw [hdata, hflat]; simp [List.append_assoc]) (by simp)]
    rfl

theorem cur_decode_encode (c : CursorFile) (hne : c.frames ≠ [])
    (hcount : c.frames.length < 65536) (hok : ∀ f ∈ c.frames, CurFrameOk f)
    (hsz : 6 + c.frames.length * 16 + totalPayload c.frames < 4294967296) :
    (CursorFile.encode c).bind CursorFile.decode = .ok c := by
  have henc : CursorFile.encode c = .ok ([0, 0, 2, 0] ++ toLe16 c.frames.length
      ++ dirBytes c.frames (6 + c.frames.length * 16)
      ++ c.frames.flatMap (fun f => f.image_data)) := by
    unfold CursorFile.encode
    rw [if_neg hne]
  rw [henc]
  show CursorFile.decode ([0, 0, 2, 0] ++ toLe16 c.frames.length
      ++ dirBytes c.frames (6 + c.frames.length * 16)
      ++ c.frames.flatMap (fun f => f.image_data)) = .ok c
  simp only [CursorFile.decode]
  rw [if_pos (by
    simp only [List.length_append, List.length_cons, List.length_nil, toLe16]
    omega)]
  rw [if_neg (fun h => h rfl)]
  have e4 : ((([0, 0, 2, 0] ++ toLe16 c.frames.length
      ++ dirBytes c.frames (6 + c.frames.length * 16)
      ++ c.frames.flatMap (fun f => f.image_data))).take 6).getD 4 0
      = c.frames.length % 256 := rfl
  have e5 : ((([0, 0, 2, 0] ++ toLe16 c.frames.length
      ++ dirBytes c.frames (6 + c.frames.length * 16)
      ++ c.frames.flatMap (fun f => f.image_data))).take 6).getD 5 0
      = c.frames.length / 256 % 256 := rfl
  rw [e4, e5, fromLe16_toLe16, Nat.mod_eq_of_lt hcount]
  rw [if_neg (by
    intro h0
    exact hne (List.length_eq_zero.mp h0))]
  rw [readDirEntries_spec c.frames _ ([0, 0, 2, 0] ++ toLe16 c.frames.length)
    (c.frames.flatMap (fun f => f.image_data)) 6 (6 + c.frames.length * 16)
    (by simp [List.append_assoc])
    (by simp [toLe16]) hok (by omega)]
  simp only [Except.bind]
  rw [readFrames_spec c.frames _
    ([0, 0, 2, 0] ++ toLe16 c.frames.length
      ++ dirBytes c.frames (6 + c.frames.length * 16)) (6 + c.frames.length * 16)
    rfl
    (by
      simp only [List.length_append, List.length_cons, List.length_nil, toLe16,
        dirBytes_length]
      try omega)]
  rfl

theorem parseAnih_num_frames (h : AniHeader) (x : AniHeader)
    (hnf : h.num_frames < 4294967296) :
    (parseAnih (anihBody h) x).num_frames = h.num_frames := by
  unfold parseAnih
  rw [if_pos (by rw [anihBody_length])]
  have e4 : (anihBody h).getD 4 0 = h.num_frames % 256 := rfl
  have e5 : (anihBody h).getD 5 0 = h.num_frames / 256 % 256 := rfl
  have e6 : (anihBody h).getD 6 0 = h.num_frames / 65536 % 256 := rfl
  have e7 : (anihBody h).getD 7 0 = h.num_frames / 16777216 % 256 := rfl
  show fromLe32 ((anihBody h).getD 4 0) ((anihBody h).getD 5 0) ((anihBody h).getD 6 0)
      ((anihBody h).getD 7 0) = h.num_frames
  rw [e4, e5, e6, e7, fromLe32_toLe32, Nat.mod_eq_of_lt hnf]

theorem ani_decode_encode (a : AniFile) (hne : a.frames ≠ [])
    (hok : ∀ fr ∈ a.frames, AniFrameOk fr)
    (hnf : a.header.num_frames < 4294967296)
    (hseq0 : a.sequence = [] → a.header.num_frames = 0)
    (hseqb : ∀ v ∈ a.sequence, v < 4294967296)
    (hseql : a.sequence.length * 4 < 4294967296)
    (hrateb : ∀ v ∈ a.rates, v < 4294967296)
    (hratel : a.rates.length * 4 < 4294967296)
    (hicon : (iconBytes a.frames).length < 4294967296) :
    ((AniFile.encode a).bind AniFile.decode).map (fun g => (g.frames, g.sequence, g.rates))
      = .ok (a.frames, a.sequence, a.rates) := by
  rw [AniFile.encode_eq a hne]
  simp only [Except.bind]
  simp only [AniFile.decode]
  rw [if_pos (by simp [aniBytes, riffTag, aconTag, toLe32])]
  rw [if_neg (fun h => h rfl)]
  rw [if_neg (fun h => h rfl)]
  have hdrop12 : (aniBytes a).drop 12 =
      anihTag ++ (toLe32 36 ++ (anihBody a.header ++ (seqSection a ++ (rateSection a ++
        (listTag ++ (toLe32 (iconBytes a.frames).length ++ (framTag ++
          (iconBytes a.frames ++ [])))))))) := by
    rw [show aniBytes a = (riffTag ++ toLe32 (aniFileSize a) ++ aconTag) ++
        (anihTag ++ (toLe32 36 ++ (anihBody a.header ++ (seqSection a ++ (rateSection a ++
          (listTag ++ (toLe32 (iconBytes a.frames).length ++ (framTag ++
            (iconBytes a.frames ++ []))))))))) from by
      simp [aniBytes, List.append_assoc]]
    exact List.drop_left' (by simp [riffTag, aconTag, toLe32])
  rw [hdrop12]
  obtain ⟨m, hm⟩ : ∃ m, (aniBytes a).length + 1 = m + 1 + 1 + 1 + 1 := by
    refine ⟨(aniBytes a).length - 3, ?_⟩
    have : 56 ≤ (aniBytes a).length := by
      simp [aniBytes, riffTag, aconTag, anihTag, toLe32, anihBody_length]
    omega
  rw [hm]
  rw [chunkLoop_cons _ (chunkStep_anih _ _ _ (anihBody_length a.header))]
  have hpa : (parseAnih (anihBody a.header) AniHeader.new).num_frames = a.header.num_frames :=
    parseAnih_num_frames a.header AniHeader.new hnf
  by_cases hs : a.sequence = List.range a.header.num_frames
  · rw [show seqSection a = [] from by simp [seqSection, hs]]
    by_cases hr : a.rates = []
    · rw [show rateSection a = [] from by simp [rateSection, hr]]
      rw [List.nil_append, List.nil_append]
      rw [chunkLoop_cons _ (chunkStep_list_fram a.frames [] _ hok hne hicon)]
      rw [chunkLoop_nil]
      simp only [Except.map, hpa]
      simp only [if_true, List.nil_append]
      rw [hs, hr]
    · rw [show rateSection a = rateTag ++ toLe32 (a.rates.length * 4)
            ++ a.rates.flatMap toLe32 from by simp [rateSection, hr]]
      rw [List.nil_append]
      rw [show (rateTag ++ toLe32 (a.rates.length * 4) ++ a.rates.flatMap toLe32) ++
            (listTag ++ (toLe32 (iconBytes a.frames).length ++ (framTag ++
              (iconBytes a.frames ++ []))))
          = rateTag ++ (toLe32 (a.rates.length * 4) ++ (a.rates.flatMap toLe32 ++
            (listTag ++ (toLe32 (iconBytes a.frames).length ++ (framTag ++
              (iconBytes a.frames ++ [])))))) from by simp [List.append_assoc]]
      rw [chunkLoop_cons _ (chunkStep_rate _ _ _ hratel hrateb)]
      rw [chunkLoop_cons _ (chunkStep_list_fram a.frames [] _ hok hne hicon)]
      rw [chunkLoop_nil]
      simp only [Except.map, hpa]
      simp only [if_true, List.nil_append]
      rw [hs]
  · have hseqne : a.sequence ≠ [] := fun hnil => hs (by rw [hnil, hseq0 hnil]; rfl)
    rw [show seqSection a = seqTag ++ toLe32 (a.sequence.length * 4)
          ++ a.sequence.flatMap toLe32 from by simp [seqSection, hs]]
    by_cases hr : a.rates = []
    · rw [show rateSection a = [] from by simp [rateSection, hr]]
      rw [show (seqTag ++ toLe32 (a.sequence.length * 4) ++ a.sequence.flatMap toLe32) ++
            ([] ++ (listTag ++ (toLe32 (iconBytes a.frames).length ++ (framTag ++
              (iconBytes a.frames ++ [])))))
          = seqTag ++ (toLe32 (a.sequence.length * 4) ++ (a.sequence.flatMap toLe32 ++
            (listTag ++ (toLe32 (iconBytes a.frames).length ++ (framTag ++
              (iconBytes a.frames ++ [])))))) from by simp [List.append_assoc]]
      rw [chunkLoop_cons _ (chunkStep_seq _ _ _ hseql hseqb)]
      rw [chunkLoop_cons _ (chunkStep_list_fram a.frames [] _ hok hne hicon)]
      rw [chunkLoop_nil]
      simp only [Except.map]
      rw [if_neg (by simpa using hseqne)]
      rw [hr]
      simp only [List.nil_append]
    · rw [show rateSection a = rateTag ++ toLe32 (a.rates.length * 4)
            ++ a.rates.flatMap toLe32 from by simp [rateSection, hr]]
      rw [show (seqTag ++ toLe32 (a.sequence.length * 4) ++ a.sequence.flatMap toLe32) ++
            ((rateTag ++ toLe32 (a.rates.length * 4) ++ a.rates.flatMap toLe32) ++
              (listTag ++ (toLe32 (iconBytes a.frames).length ++ (framTag ++
                (iconBytes a.frames ++ [])))))
          = seqTag ++ (toLe32 (a.sequence.length * 4) ++ (a.sequence.flatMap toLe32 ++
            (rateTag ++ (toLe32 (a.rates.length * 4) ++ (a.rates.flatMap toLe32 ++
              (listTag ++ (toLe32 (iconBytes a.frames).length ++ (framTag ++
                (iconBytes a.frames ++ []))))))))) from by simp [List.append_assoc]]
      rw [chunkLoop_cons _ (chunkStep_seq _ _ _ hseql hseqb)]
      rw [chunkLoop_cons _ (chunkStep_rate _ _ _ hratel hrateb)]
      rw [chunkLoop_cons _ (chunkStep_list_fram a.frames [] _ hok hne hicon)]
      rw [chunkLoop_nil]
      simp only [Except.map]
      rw [if_neg (by simpa using hseqne)]
      simp only [List.nil_append]

theorem iconBytes_length_sum (frames : List AniFrame) :
    (iconBytes frames).length =
      (frames.map (fun g => 8 + g.image_data.length +
        (if g.image_data.length % 2 ≠ 0 then 1 else 0))).sum := by
  induction frames with
  | nil => rfl
  | cons fr fs ih =>
    rw [iconBytes_cons, List.length_append, iconChunk_length fr, List.map_cons,
      List.sum_cons, ih]

theorem decode_skip_chunk (ch : List Nat)
    (hstep : ∀ (rest : List Nat) (st : AniDecState),
      chunkStep (ch ++ rest) st = .ok (some (rest, st)))
    (hdr tail : List Nat) (hhdr : hdr.length = 12) :
    AniFile.decode (hdr ++ (ch ++ tail)) = AniFile.decode (hdr ++ tail) := by
  simp only [AniFile.decode]
  rw [if_pos (show 12 ≤ (hdr ++ (ch ++ tail)).length by simp [hhdr])]
  rw [if_pos (show 12 ≤ (hdr ++ tail).length by simp [hhdr])]
  rw [List.take_left' hhdr, List.take_left' hhdr]
  by_cases hriff : hdr.take 4 ≠ riffTag
  · rw [if_pos hriff, if_pos hriff]
  · rw [if_neg hriff, if_neg hriff]
    by_cases hacon : (hdr.drop 8).take 4 ≠ aconTag
    · rw [if_pos hacon, if_pos hacon]
    · rw [if_neg hacon, if_neg hacon]
      rw [List.drop_left' hhdr, List.drop_left' hhdr]
      rw [chunkLoop_cons _ (hstep tail _)]
      rw [chunkLoop_fuel ((hdr ++ (ch ++ tail)).length) tail _ ((hdr ++ tail).length + 1)
        (by simp only [List.length_append, hhdr]; omega)
        (by simp only [List.length_append, hhdr]; omega)]

/-! ### The claims -/

/-- Claim C1 (corrected; see c1_counterexample): the round trip holds for
both codecs under the conditions the wire format can represent.  For CUR,
every frame must have dimensions in 1..256 and 16-bit hotspots (plus the
u16 frame count and u32 offsets staying in range); for ANI, every frame
must carry no duration and a payload of at least 22 bytes whose embedded
directory bytes agree with the frame fields, since decode re-derives the
geometry by peeking at payload bytes 6, 7 and 10-13 and never recovers a
duration; an empty sequence is representable only together with a zero
frame count, since decode re-synthesizes the identity 0..num_frames
whenever the collected sequence is empty.  Under those conditions decode
of encode returns the frames exactly, and for ANI also the sequence and
rates. -/
theorem c1_roundtrip (c : CursorFile) (a : AniFile)
    (hcne : c.frames ≠ []) (hcount : c.frames.length < 65536)
    (hcok : ∀ f ∈ c.frames, CurFrameOk f)
    (hcsz : 6 + c.frames.length * 16 + totalPayload c.frames < 4294967296)
    (hane : a.frames ≠ []) (haok : ∀ fr ∈ a.frames, AniFrameOk fr)
    (hnf : a.header.num_frames < 4294967296)
    (hseq0 : a.sequence = [] → a.header.num_frames = 0)
    (hseqb : ∀ v ∈ a.sequence, v < 4294967296)
    (hseql : a.sequence.length * 4 < 4294967296)
    (hrateb : ∀ v ∈ a.rates, v < 4294967296)
    (hratel : a.rates.length * 4 < 4294967296)
    (hicon : (iconBytes a.frames).length < 4294967296) :
    (CursorFile.encode c).bind CursorFile.decode = .ok c ∧
    ((AniFile.encode a).bind AniFile.decode).map (fun g => (g.frames, g.sequence, g.rates))
      = .ok (a.frames, a.sequence, a.rates) :=
  ⟨cur_decode_encode c hcne hcount hcok hcsz,
   ani_decode_encode a hane haok hnf hseq0 hseqb hseql hrateb hratel hicon⟩

/-- Witness for C1 at the concrete two-frame CUR file and the one-frame
ANI file whose payload bytes agree with its geometry. -/
theorem c1_roundtrip_witness :
    (CursorFile.encode ⟨[frameA, frameB]⟩).bind CursorFile.decode = .ok ⟨[frameA, frameB]⟩ ∧
    ((AniFile.encode (AniFile.new [aniFrame1])).bind AniFile.decode).map
        (fun g => (g.frames, g.sequence, g.rates))
      = .ok ((AniFile.new [aniFrame1]).frames, (AniFile.new [aniFrame1]).sequence,
          (AniFile.new [aniFrame1]).rates) :=
  c1_roundtrip ⟨[frameA, frameB]⟩ (AniFile.new [aniFrame1]) (by decide) (by decide)
    (by decide) (by decide) (by decide) (by decide) (by decide) (by decide) (by decide)
    (by decide) (by decide) (by decide) (by decide)

/-- Counterexample to C1 as stated: a CUR frame of width 300 (the struct
places no bound on the u32 width) decodes back as width 44 = 300 mod 256,
and the spec-valid ANI frame cexFrame (width 1, all-zero 22-byte payload,
no duration) decodes back with width 256, because decode re-reads the
geometry from payload byte 6 (zero mapping to 256).  So decode of encode
does not return the input frames for every non-empty frame list. -/
theorem c1_counterexample :
    (((CursorFile.encode ⟨[⟨300, 1, 0, 0, []⟩]⟩).bind CursorFile.decode).map
        (fun k => k.frames.map (fun f => f.width)) = .ok [44])
    ∧ (((AniFile.encode (AniFile.new [cexFrame])).bind AniFile.decode).map
        (fun g => g.frames.map (fun fr => fr.width)) = .ok [256])
    ∧ cexFrame.width = 1 :=
  ⟨by decide, by decide, rfl⟩

/-- Claim C2: CursorFile::encode emits the 6-byte header 00 00 02 00 plus
the little-endian frame count, then the 16-byte directory entries whose
offsets start at 6 + 16 N and advance by each payload length, then the
payloads packed contiguously; the concrete two-frame scenario produces
exactly the bytes of the specification and round-trips. -/
theorem c2_cur_layout (c : CursorFile) (hne : c.frames ≠ []) :
    (CursorFile.encode c = .ok ([0, 0, 2, 0] ++ toLe16 c.frames.length
      ++ dirBytes c.frames (6 + c.frames.length * 16)
      ++ c.frames.flatMap (fun f => f.image_data)))
    ∧ (∀ (f : CursorFrame) (fs : List CursorFrame) (off : Nat),
        dirBytes (f :: fs) off
          = dirEntryBytes f off ++ dirBytes fs (off + f.image_data.length))
    ∧ ((CursorFile.encode ⟨[frameA, frameB]⟩).map (fun bs => bs.take 6)
        = .ok [0, 0, 2, 0, 2, 0])
    ∧ ((CursorFile.encode ⟨[frameA, frameB]⟩).map (fun bs => (bs.drop 6).take 16)
        = .ok [32, 32, 0, 0, 0, 0, 0, 0, 100, 0, 0, 0, 38, 0, 0, 0])
    ∧ ((CursorFile.encode ⟨[frameA, frameB]⟩).map (fun bs => (bs.drop 22).take 16)
        = .ok [0, 0, 0, 0, 128, 0, 128, 0, 50, 0, 0, 0, 138, 0, 0, 0])
    ∧ ((CursorFile.encode ⟨[frameA, frameB]⟩).bind CursorFile.decode
        = .ok ⟨[frameA, frameB]⟩) := by
  refine ⟨?_, ?_, by decide, by decide, by decide, by decide⟩
  · unfold CursorFile.encode
    rw [if_neg hne]
  · intro f fs off
    simp [dirBytes]

/-- Witness for C2 at the concrete two-frame file. -/
theorem c2_cur_layout_witness :
    CursorFile.encode ⟨[frameA, frameB]⟩
      = .ok ([0, 0, 2, 0] ++ toLe16 [frameA, frameB].length
        ++ dirBytes [frameA, frameB] (6 + [frameA, frameB].length * 16)
        ++ [frameA, frameB].flatMap (fun f => f.image_data)) :=
  (c2_cur_layout ⟨[frameA, frameB]⟩ (by decide)).1

/-- Claim C3: parse_cursor_data errors on fewer than 22 bytes; on at least
22 bytes it returns a frame whose width and height come from bytes 6 and 7
(zero mapping to 256), whose hotspots are the little-endian 16-bit values
at bytes 10-11 and 12-13, and these fields depend only on the first 22
bytes of the slice. -/
theorem c3_parse_cursor_data (data : List Nat) :
    (data.length < 22 → parse_cursor_data data = .error "Invalid cursor data")
    ∧ (22 ≤ data.length → parse_cursor_data data = .ok
        { width := if data.getD 6 0 = 0 then 256 else data.getD 6 0,
          height := if data.getD 7 0 = 0 then 256 else data.getD 7 0,
          hotspot_x := fromLe16 (data.getD 10 0) (data.getD 11 0),
          hotspot_y := fromLe16 (data.getD 12 0) (data.getD 13 0),
          image_data := data, duration := none })
    ∧ (∀ d2 : List Nat, 22 ≤ data.length → 22 ≤ d2.length →
        data.take 22 = d2.take 22 →
        (parse_cursor_data data).map
            (fun fr => (fr.width, fr.height, fr.hotspot_x, fr.hotspot_y, fr.duration))
          = (parse_cursor_data d2).map
            (fun fr => (fr.width, fr.height, fr.hotspot_x, fr.hotspot_y, fr.duration))) := by
  have hok : ∀ l : List Nat, 22 ≤ l.length → parse_cursor_data l = .ok
      { width := if l.getD 6 0 = 0 then 256 else l.getD 6 0,
        height := if l.getD 7 0 = 0 then 256 else l.getD 7 0,
        hotspot_x := fromLe16 (l.getD 10 0) (l.getD 11 0),
        hotspot_y := fromLe16 (l.getD 12 0) (l.getD 13 0),
        image_data := l, duration := none } := by
    intro l hl
    unfold parse_cursor_data
    rw [if_neg (by omega)]
  refine ⟨?_, hok data, ?_⟩
  · intro h
    unfold parse_cursor_data
    rw [if_pos h]
  · intro d2 h1 h2 htake
    have hg : ∀ i, i < 22 → data.getD i 0 = d2.getD i 0 := by
      intro i hi
      have e1 : (data.take 22).getD i 0 = data.getD i 0 := by
        simp [List.getD, List.getElem?_take, hi]
      have e2 : (d2.take 22).getD i 0 = d2.getD i 0 := by
        simp [List.getD, List.getElem?_take, hi]
      rw [← e1, ← e2, htake]
    rw [hok data h1, hok d2 h2]
    simp only [Except.map]
    rw [hg 6 (by omega), hg 7 (by omega), hg 10 (by omega), hg 11 (by omega),
      hg 12 (by omega), hg 13 (by omega)]

/-- Witness for C3 on a 10-byte slice. -/
theorem c3_parse_cursor_data_witness :
    (List.replicate 10 (0 : Nat)).length < 22 ∧
    parse_cursor_data (List.replicate 10 0) = .error "Invalid cursor data" :=
  ⟨by decide, (c3_parse_cursor_data (List.replicate 10 0)).1 (by decide)⟩

/-- Claim C4: the directory byte of a dimension is dimByte (0 for 256,
the value otherwise, truncated to one byte); decode maps byte 0 back to
256 and any non-zero byte to itself; the two maps are inverse on 1..256,
and 256 and 1 round-trip concretely. -/
theorem c4_size256 (f : CursorFrame) (off : Nat) :
    ((dirEntryBytes f off).getD 0 0 = dimByte f.width
      ∧ (dirEntryBytes f off).getD 1 0 = dimByte f.height)
    ∧ (f.width = 256 → dimByte f.width = 0)
    ∧ (f.width ≠ 256 → dimByte f.width = f.width % 256)
    ∧ (∀ e : List Nat,
        (parseDirEntry e).width = (if e.getD 0 0 = 0 then 256 else e.getD 0 0)
        ∧ (parseDirEntry e).height = (if e.getD 1 0 = 0 then 256 else e.getD 1 0))
    ∧ (1 ≤ f.width → f.width ≤ 256 →
        (if dimByte f.width = 0 then 256 else dimByte f.width) = f.width)
    ∧ (((CursorFile.encode ⟨[⟨256, 256, 0, 0, []⟩]⟩).bind CursorFile.decode).map
          (fun k => k.frames.map (fun g => (g.width, g.height))) = .ok [(256, 256)])
    ∧ (((CursorFile.encode ⟨[⟨1, 1, 0, 0, []⟩]⟩).bind CursorFile.decode).map
          (fun k => k.frames.map (fun g => (g.width, g.height))) = .ok [(1, 1)]) := by
  refine ⟨⟨rfl, rfl⟩, ?_, ?_, fun e => ⟨rfl, rfl⟩, ?_, by decide, by decide⟩
  · intro h
    simp [dimByte, h]
  · intro h
    simp [dimByte, h]
  · intro h1 h2
    exact dimByte_inv f.width h1 h2

/-- Witness for C4 at width 256. -/
theorem c4_size256_witness :
    (⟨256, 256, 0, 0, []⟩ : CursorFrame).width = 256 ∧
    dimByte (⟨256, 256, 0, 0, []⟩ : CursorFrame).width = 0 :=
  ⟨rfl, (c4_size256 ⟨256, 256, 0, 0, []⟩ 0).2.1 rfl⟩

/-- Claim C5: the encoded stream is aniBytes, whose seq section is present
(tag, byte count 4 per entry, consecutive 32-bit little-endian values)
exactly when the sequence differs from the identity 0..num_frames, and
whose rate section is present exactly when the rates list is non-empty,
with one 32-bit value per entry. -/
theorem c5_optional_chunks (a : AniFile) (hne : a.frames ≠ []) :
    AniFile.encode a = .ok (aniBytes a)
    ∧ (a.sequence ≠ List.range a.header.num_frames →
        seqSection a = seqTag ++ toLe32 (a.sequence.length * 4) ++ a.sequence.flatMap toLe32)
    ∧ (a.sequence = List.range a.header.num_frames → seqSection a = [])
    ∧ (a.rates ≠ [] →
        rateSection a = rateTag ++ toLe32 (a.rates.length * 4) ++ a.rates.flatMap toLe32)
    ∧ (a.rates = [] → rateSection a = [])
    ∧ (a.sequence.flatMap toLe32).length = 4 * a.sequence.length
    ∧ (a.rates.flatMap toLe32).length = 4 * a.rates.length := by
  refine ⟨AniFile.encode_eq a hne, ?_, ?_, ?_, ?_, flatMap_toLe32_length a.sequence,
    flatMap_toLe32_length a.rates⟩
  · intro h
    simp [seqSection, h]
  · intro h
    simp [seqSection, h]
  · intro h
    simp [rateSection, h]
  · intro h
    simp [rateSection, h]

/-- Witness for C5 at a one-frame file. -/
theorem c5_optional_chunks_witness :
    AniFile.encode (AniFile.new [aniFrame1]) = .ok (aniBytes (AniFile.new [aniFrame1])) :=
  (c5_optional_chunks (AniFile.new [aniFrame1]) (by decide)).1

/-- Claim C6: CursorFile::decode reports the format error "Not a cursor
file" whenever the 6-byte header is readable and its resource-type field
is not 2, and fails whenever the frame count reads zero; AniFile::decode
reports the format error "Not a RIFF file" whenever the 12-byte header is
readable and bytes 0-3 are not RIFF, and "Not an ANI file" whenever the
header is readable, bytes 0-3 are RIFF and bytes 8-11 are not ACON; a
non-RIFF input always fails, and an input shorter than the 12-byte header
fails with the read error before any marker is checked. -/
theorem c6_decode_failures (data : List Nat) :
    (6 ≤ data.length →
        fromLe16 ((data.take 6).getD 2 0) ((data.take 6).getD 3 0) ≠ 2 →
        CursorFile.decode data = .error "Not a cursor file")
    ∧ (fromLe16 ((data.take 6).getD 4 0) ((data.take 6).getD 5 0) = 0 →
        ∃ e, CursorFile.decode data = .error e)
    ∧ (12 ≤ data.length → data.take 4 ≠ riffTag →
        AniFile.decode data = .error "Not a RIFF file")
    ∧ (12 ≤ data.length → data.take 4 = riffTag →
        ((data.take 12).drop 8).take 4 ≠ aconTag →
        AniFile.decode data = .error "Not an ANI file")
    ∧ (data.take 4 ≠ riffTag → ∃ e, AniFile.decode data = .error e)
    ∧ (data.length < 12 → AniFile.decode data = .error "failed to fill whole buffer") := by
  have hmin : (4 : Nat) ⊓ 12 = 4 := by omega
  have ht : (data.take 12).take 4 = data.take 4 := by
    rw [List.take_take, hmin]
  refine ⟨?_, ?_, ?_, ?_, ?_, ?_⟩
  · intro hlen htype
    unfold CursorFile.decode
    rw [if_pos hlen, if_pos htype]
  · intro hcount
    unfold CursorFile.decode
    by_cases hlen : 6 ≤ data.length
    · rw [if_pos hlen]
      by_cases htype : fromLe16 ((data.take 6).getD 2 0) ((data.take 6).getD 3 0) ≠ 2
      · rw [if_pos htype]
        exact ⟨_, rfl⟩
      · rw [if_neg htype, if_pos hcount]
        exact ⟨_, rfl⟩
    · rw [if_neg hlen]
      exact ⟨_, rfl⟩
  · intro hlen hriff
    unfold AniFile.decode
    rw [if_pos hlen]
    rw [if_pos (show ¬(data.take 12).take 4 = riffTag from by rw [ht]; exact hriff)]
  · intro hlen hriff hacon
    unfold AniFile.decode
    rw [if_pos hlen]
    rw [if_neg (show ¬(data.take 12).take 4 ≠ riffTag from by
      rw [ht, hriff]; exact fun h => h rfl)]
    rw [if_pos hacon]
  · intro hriff
    by_cases hlen : 12 ≤ data.length
    · refine ⟨"Not a RIFF file", ?_⟩
      unfold AniFile.decode
      rw [if_pos hlen]
      rw [if_pos (show ¬(data.take 12).take 4 = riffTag from by rw [ht]; exact hriff)]
    · refine ⟨"failed to fill whole buffer", ?_⟩
      unfold AniFile.decode
      rw [if_neg hlen]
  · intro hlen
    unfold AniFile.decode
    rw [if_neg (by omega)]

/-- Witness for C6 on a 6-byte stream with resource type 0. -/
theorem c6_decode_failures_witness :
    CursorFile.decode [0, 0, 0, 0, 1, 0] = .error "Not a cursor file" :=
  (c6_decode_failures [0, 0, 0, 0, 1, 0]).1 (by decide) (by decide)

/-- Claim C7: an odd payload gets exactly one zero pad byte after its icon
chunk and an even payload none; the declared icon size (bytes 4-7 of the
chunk) is the unpadded payload length; the LIST size written by encode is
the total icon-chunk length including every pad byte. -/
theorem c7_padding (fr : AniFrame) (a : AniFile) (hne : a.frames ≠ []) :
    (fr.image_data.length % 2 = 1 →
        iconChunk fr = iconTag ++ toLe32 fr.image_data.length ++ fr.image_data ++ [0])
    ∧ (fr.image_data.length % 2 = 0 →
        iconChunk fr = iconTag ++ toLe32 fr.image_data.length ++ fr.image_data)
    ∧ ((iconChunk fr).take 8 = iconTag ++ toLe32 fr.image_data.length)
    ∧ ((iconChunk fr).length
        = 8 + fr.image_data.length + (if fr.image_data.length % 2 ≠ 0 then 1 else 0))
    ∧ ((iconBytes a.frames).length
        = (a.frames.map (fun g => 8 + g.image_data.length
            + (if g.image_data.length % 2 ≠ 0 then 1 else 0))).sum)
    ∧ (AniFile.encode a = .ok (aniBytes a))
    ∧ (aniBytes a = riffTag ++ toLe32 (aniFileSize a) ++ aconTag ++ anihTag ++ toLe32 36
        ++ anihBody a.header ++ seqSection a ++ rateSection a
        ++ listTag ++ toLe32 (iconBytes a.frames).length ++ framTag
        ++ iconBytes a.frames) := by
  refine ⟨?_, ?_, ?_, iconChunk_length fr, iconBytes_length_sum a.frames,
    AniFile.encode_eq a hne, rfl⟩
  · intro h
    simp [iconChunk, h]
  · intro h
    simp [iconChunk, h]
  · rw [show iconChunk fr = (iconTag ++ toLe32 fr.image_data.length)
        ++ (fr.image_data ++ (if fr.image_data.length % 2 ≠ 0 then [0] else [])) from by
      simp [iconChunk, List.append_assoc]]
    exact List.take_left' (by simp [iconTag, toLe32])

/-- Witness for C7 at a one-byte (odd) payload. -/
theorem c7_padding_witness :
    iconChunk ⟨1, 1, 0, 0, [7], none⟩ = iconTag ++ toLe32 1 ++ [7] ++ [0] :=
  (c7_padding ⟨1, 1, 0, 0, [7], none⟩ (AniFile.new [aniFrame1]) (by decide)).1 (by decide)

/-- Claim C8: the chunk loop skips an unknown top-level chunk (any 4-byte
tag other than anih, seq, rate, LIST) and an unknown LIST sub-type by
their declared sizes plus pad, leaving the state untouched, and decoding
a stream containing such a chunk equals decoding the stream without it. -/
theorem c8_forward_compat (tag body padL rest subty lbody padL2 : List Nat) (sz : Nat)
    (st : AniDecState)
    (htag : tag.length = 4) (hna : tag ≠ anihTag) (hns : tag ≠ seqTag)
    (hnr : tag ≠ rateTag) (hnl : tag ≠ listTag) (hb : body.length = sz)
    (hsz : sz < 4294967296) (hpadL : padL.length = if sz % 2 ≠ 0 then 1 else 0)
    (hsub : subty.length = 4) (hnfram : subty ≠ framTag)
    (hlb : 4 + lbody.length < 4294967296)
    (hpadL2 : padL2.length = if (4 + lbody.length) % 2 ≠ 0 then 1 else 0) :
    (chunkStep (tag ++ (toLe32 sz ++ (body ++ (padL ++ rest)))) st = .ok (some (rest, st)))
    ∧ (chunkStep (listTag ++ (toLe32 (4 + lbody.length)
          ++ (subty ++ (lbody ++ (padL2 ++ rest))))) st = .ok (some (rest, st)))
    ∧ (∀ (hdr tail : List Nat), hdr.length = 12 →
        AniFile.decode (hdr ++ ((tag ++ toLe32 sz ++ body ++ padL) ++ tail))
          = AniFile.decode (hdr ++ tail))
    ∧ (∀ (hdr tail : List Nat), hdr.length = 12 →
        AniFile.decode (hdr ++ ((listTag ++ toLe32 (4 + lbody.length) ++ subty ++ lbody
            ++ padL2) ++ tail))
          = AniFile.decode (hdr ++ tail)) := by
  refine ⟨chunkStep_unknown tag body padL rest sz st htag hna hns hnr hnl hb hsz hpadL,
    chunkStep_list_unknown subty lbody padL2 rest st hsub hnfram hlb hpadL2, ?_, ?_⟩
  · intro hdr tail hhdr
    refine decode_skip_chunk (tag ++ toLe32 sz ++ body ++ padL) (fun r s => ?_) hdr tail hhdr
    rw [show (tag ++ toLe32 sz ++ body ++ padL) ++ r
          = tag ++ (toLe32 sz ++ (body ++ (padL ++ r))) from by simp [List.append_assoc]]
    exact chunkStep_unknown tag body padL r sz s htag hna hns hnr hnl hb hsz hpadL
  · intro hdr tail hhdr
    refine decode_skip_chunk (listTag ++ toLe32 (4 + lbody.length) ++ subty ++ lbody
      ++ padL2) (fun r s => ?_) hdr tail hhdr
    rw [show (listTag ++ toLe32 (4 + lbody.length) ++ subty ++ lbody ++ padL2) ++ r
          = listTag ++ (toLe32 (4 + lbody.length) ++ (subty ++ (lbody ++ (padL2 ++ r))))
        from by simp [List.append_assoc]]
    exact chunkStep_list_unknown subty lbody padL2 r s hsub hnfram hlb hpadL2

/-- Witness for C8: injecting the unknown chunk 01 02 03 04 of size 1
after the RIFF/ACON header does not change the decode result. -/
theorem c8_forward_compat_witness :
    AniFile.decode ((riffTag ++ [0, 0, 0, 0] ++ aconTag) ++
        (([1, 2, 3, 4] ++ toLe32 1 ++ [9] ++ [0]) ++ []))
      = AniFile.decode ((riffTag ++ [0, 0, 0, 0] ++ aconTag) ++ []) :=
  (c8_forward_compat [1, 2, 3, 4] [9] [0] [] [5, 6, 7, 8] [7] [0] 1
    ⟨AniHeader.new, [], [], []⟩ (by decide) (by decide) (by decide) (by decide)
    (by decide) (by decide) (by decide) (by decide) (by decide) (by decide)
    (by decide) (by decide)).2.2.1 (riffTag ++ [0, 0, 0, 0] ++ aconTag) [] (by decide)

/-- Claim C9 (corrected; see c9_counterexample): after the chunk loop,
decode returns the identity sequence 0..num_frames whenever the collected
sequence is empty (in particular when no seq chunk occurred, but also
when a seq chunk with an empty body occurred), and otherwise the
collected values; a seq chunk appends its decoded 32-bit values to the
collected sequence. -/
theorem c9_default_sequence (data : List Nat) (st : AniDecState) (vals rest : List Nat)
    (hsz : vals.length * 4 < 4294967296) (hvals : ∀ v ∈ vals, v < 4294967296) :
    (∀ stf : AniDecState, 12 ≤ data.length → (data.take 12).take 4 = riffTag →
        ((data.take 12).drop 8).take 4 = aconTag →
        chunkLoop (data.length + 1) (data.drop 12) ⟨AniHeader.new, [], [], []⟩ = .ok stf →
        AniFile.decode data = .ok
          { header := stf.header, frames := stf.frames,
            sequence := if stf.sequence = [] then List.range stf.header.num_frames
                        else stf.sequence,
            rates := stf.rates })
    ∧ (chunkStep (seqTag ++ (toLe32 (vals.length * 4) ++ (vals.flatMap toLe32 ++ rest))) st
        = .ok (some (rest, { st with sequence := st.sequence ++ vals }))) := by
  refine ⟨?_, chunkStep_seq vals rest st hsz hvals⟩
  intro stf hlen hriff hacon hloop
  unfold AniFile.decode
  rw [if_pos hlen]
  rw [if_neg (show ¬(data.take 12).take 4 ≠ riffTag from by rw [hriff]; exact fun h => h rfl)]
  rw [if_neg (show ¬((data.take 12).drop 8).take 4 ≠ aconTag from by
    rw [hacon]; exact fun h => h rfl)]
  rw [hloop]

/-- Witness for C9 on the bare RIFF/ACON stream with no chunks. -/
theorem c9_default_sequence_witness :
    AniFile.decode (riffTag ++ ([0, 0, 0, 0] ++ aconTag))
      = .ok { header := AniHeader.new, frames := [],
              sequence := if ([] : List Nat) = [] then List.range AniHeader.new.num_frames
                          else [],
              rates := [] } :=
  (c9_default_sequence (riffTag ++ ([0, 0, 0, 0] ++ aconTag)) ⟨AniHeader.new, [], [], []⟩
      [] [] (by decide) (by decide)).1
    ⟨AniHeader.new, [], [], []⟩ (by decide) (by decide) (by decide) (by decide)

/-- Counterexample to C9 as stated: a stream with an anih chunk declaring
one frame and one step followed by a seq chunk of declared size 0 makes
decode encounter a seq chunk whose decoded value list is empty, yet the
returned sequence is the synthesized identity mapping 0..1 = the single
index 0, not the empty list of chunk values: synthesis is triggered by
the emptiness of the collected sequence, not by chunk absence. -/
theorem c9_counterexample :
    (AniFile.decode (riffTag ++ [0, 0, 0, 0] ++ aconTag ++ anihTag ++ toLe32 36
        ++ anihBody { AniHeader.new with num_frames := 1, num_steps := 1 }
        ++ seqTag ++ toLe32 0)).map (fun g => g.sequence) = .ok [0] := by
  decide

/-- Claim C10 (implicit): encode never validates dimensions: it succeeds
for every non-empty frame list, writes any dimension other than 256 as
that value modulo 256, and concretely width 257 round-trips to 1 and
width 512 to 256. -/
theorem c10_no_validation (c : CursorFile) (w : Nat) (hne : c.frames ≠ [])
    (hw : w ≠ 256) :
    (∃ bs, CursorFile.encode c = .ok bs)
    ∧ dimByte w = w % 256
    ∧ (((CursorFile.encode ⟨[⟨257, 1, 0, 0, []⟩]⟩).bind CursorFile.decode).map
          (fun k => k.frames.map (fun f => f.width)) = .ok [1])
    ∧ (((CursorFile.encode ⟨[⟨512, 1, 0, 0, []⟩]⟩).bind CursorFile.decode).map
          (fun k => k.frames.map (fun f => f.width)) = .ok [256]) := by
  refine ⟨⟨[0, 0, 2, 0] ++ toLe16 c.frames.length
      ++ dirBytes c.frames (6 + c.frames.length * 16)
      ++ c.frames.flatMap (fun f => f.image_data), ?_⟩, ?_, by decide, by decide⟩
  · unfold CursorFile.encode
    rw [if_neg hne]
  · simp [dimByte, hw]

/-- Witness for C10 at width 257. -/
theorem c10_no_validation_witness :
    dimByte 257 = 257 % 256 :=
  (c10_no_validation ⟨[⟨257, 1, 0, 0, []⟩]⟩ 257 (by decide) (by decide)).2.1
